import Mathlib

/-!
Verification of the Ownstash-Downloader core against its specification.

Each component of the Rust source under src/src-tauri/src is shallowly
embedded: pure decision logic becomes Lean functions, stateful operations
become explicit state passing, and machine integers become Nat with explicit
wrapping where the Rust code can overflow.  External crates (AES-GCM, Argon2)
are modelled as idealized primitives, clearly marked below.
-/

namespace Ownstash

/-! ## Vault cryptor (src/src-tauri/src/vault.rs)

Byte sequences are lists of naturals (each byte of real data is < 256).
-/

namespace Vault

abbrev Bytes := List Nat

def NONCE_SIZE : Nat := 12

def KEY_SIZE : Nat := 32

def CHUNK_SIZE : Nat := 1024 * 1024

/-- The v2 magic header bytes, the ASCII of "SLV2". -/
def VAULT_MAGIC : Bytes := [83, 76, 86, 50]

/-- Little-endian encoding of a natural into `width` bytes, as in Rust's
`to_le_bytes` (the value is truncated modulo 2^(8*width)). -/
def leBytes : Nat → Nat → Bytes
  | _, 0 => []
  | n, w + 1 => n % 256 :: leBytes (n / 256) w

/-- Little-endian decoding, as in Rust's `from_le_bytes`. -/
def fromLeBytes (l : Bytes) : Nat :=
  l.foldr (fun b acc => b + 256 * acc) 0

theorem leBytes_length (n w : Nat) : (leBytes n w).length = w := by
  induction w generalizing n with
  | zero => rfl
  | succ w ih => simp [leBytes, ih]

theorem fromLeBytes_leBytes (n w : Nat) : fromLeBytes (leBytes n w) = n % 256 ^ w := by
  induction w generalizing n with
  | zero => simp [leBytes, fromLeBytes, Nat.mod_one]
  | succ w ih =>
    simp only [leBytes, fromLeBytes, List.foldr] at *
    rw [ih (n / 256), pow_succ', Nat.mod_mul]

/-- Idealized model of AES-256-GCM from the external `aes_gcm` crate:
encryption appends an authentication tag determined by the key and nonce;
decryption succeeds exactly on ciphertexts produced under the same key and
nonce, returning the original plaintext. -/
def gcmEncrypt (key nonce pt : Bytes) : Bytes := pt ++ key ++ nonce

/-- Idealized AES-256-GCM decryption, inverse of `gcmEncrypt`. -/
def gcmDecrypt (key nonce ct : Bytes) : Option Bytes :=
  if key.length + nonce.length ≤ ct.length ∧
      ct.drop (ct.length - (key.length + nonce.length)) = key ++ nonce then
    some (ct.take (ct.length - (key.length + nonce.length)))
  else none

theorem gcmDecrypt_gcmEncrypt (key nonce pt : Bytes) :
    gcmDecrypt key nonce (gcmEncrypt key nonce pt) = some pt := by
  have hlen : (gcmEncrypt key nonce pt).length = pt.length + (key.length + nonce.length) := by
    simp [gcmEncrypt]
  have hdrop : (gcmEncrypt key nonce pt).drop pt.length = key ++ nonce := by
    have : gcmEncrypt key nonce pt = pt ++ (key ++ nonce) := by simp [gcmEncrypt]
    rw [this, List.drop_left]
  have htake : (gcmEncrypt key nonce pt).take pt.length = pt := by
    have : gcmEncrypt key nonce pt = pt ++ (key ++ nonce) := by simp [gcmEncrypt]
    rw [this, List.take_left]
  simp [gcmDecrypt, hlen, Nat.add_sub_cancel, hdrop, htake]

theorem gcmDecrypt_wrong_key (key key2 nonce pt : Bytes)
    (hk : key.length = key2.length) (hne : key ≠ key2) :
    gcmDecrypt key2 nonce (gcmEncrypt key nonce pt) = none := by
  have hlen : (gcmEncrypt key nonce pt).length = pt.length + (key2.length + nonce.length) := by
    simp [gcmEncrypt, ← hk]
  have hdrop : (gcmEncrypt key nonce pt).drop pt.length = key ++ nonce := by
    have : gcmEncrypt key nonce pt = pt ++ (key ++ nonce) := by simp [gcmEncrypt]
    rw [this, List.drop_left]
  simp only [gcmDecrypt, hlen, Nat.add_sub_cancel, hdrop]
  have : ¬ (key ++ nonce = key2 ++ nonce) := by
    intro h
    exact hne (List.append_cancel_right h)
  simp [this]

/-- Per-chunk nonce derivation of `encrypt_file`/`decrypt_file`: the low 8
bytes of the base nonce are XORed with the little-endian chunk index. -/
def chunkNonce (baseNonce : Bytes) (chunkIndex : Nat) : Bytes :=
  (List.range NONCE_SIZE).map fun j =>
    if j < 8 then Nat.xor (baseNonce.getD j 0) ((leBytes chunkIndex 8).getD j 0)
    else baseNonce.getD j 0

theorem chunkNonce_length (baseNonce : Bytes) (i : Nat) :
    (chunkNonce baseNonce i).length = NONCE_SIZE := by
  simp [chunkNonce]

/-- The chunked-encryption loop of `encrypt_file` (vault.rs:240-269): the
plaintext is consumed in 1 MiB chunks; each chunk is AES-GCM encrypted under
the nonce for its index and framed by its little-endian u32 ciphertext
length. -/
def encryptChunks (key baseNonce : Bytes) (pt : Bytes) (i : Nat) : Bytes :=
  if pt.isEmpty then []
  else
    let chunk := pt.take CHUNK_SIZE
    let ct := gcmEncrypt key (chunkNonce baseNonce i) chunk
    leBytes ct.length 4 ++ ct ++ encryptChunks key baseNonce (pt.drop CHUNK_SIZE) (i + 1)
termination_by pt.length
decreasing_by
  simp only [List.length_drop, CHUNK_SIZE]
  have : pt.length ≠ 0 := by
    simpa [List.isEmpty_iff_length_eq_zero] using (by assumption : ¬ pt.isEmpty = true)
  omega

/-- `encrypt_file` (vault.rs:207-272), with the random base nonce passed as
a parameter: writes the magic, the base nonce, the little-endian u64
plaintext size, then the encrypted chunks. -/
def encrypt_file (key baseNonce pt : Bytes) : Bytes :=
  VAULT_MAGIC ++ baseNonce ++ leBytes pt.length 8 ++ encryptChunks key baseNonce pt 0

/-- The chunk-reading loop of the v2 branch of `decrypt_file`
(vault.rs:306-346): repeatedly reads a u32 chunk length (EOF ends the loop,
as does a zero length), reads and decrypts the chunk, and accumulates the
plaintext. -/
def decryptLoop (key baseNonce : Bytes) (body : Bytes) (i : Nat) (acc : Bytes) :
    Except String Bytes :=
  if body.length < 4 then .ok acc
  else
    let chunkSize := fromLeBytes (body.take 4)
    if hz : chunkSize = 0 then .ok acc
    else
      let rest := body.drop 4
      if rest.length < chunkSize then
        .error ("Failed to read encrypted chunk " ++ toString i)
      else
        match gcmDecrypt key (chunkNonce baseNonce i) (rest.take chunkSize) with
        | none =>
            .error ("Decryption failed at chunk " ++ toString i ++
              " - invalid PIN or corrupted file")
        | some pt => decryptLoop key baseNonce (rest.drop chunkSize) (i + 1) (acc ++ pt)
termination_by body.length
decreasing_by
  simp only [List.length_drop]
  have h4 : ¬ body.length < 4 := by assumption
  have : fromLeBytes (body.take 4) ≠ 0 := hz
  omega

/-- `decrypt_file` (vault.rs:274-381).  A v2 file (magic header) is decrypted
chunkwise and the total plaintext length is checked against the stored size;
anything else is treated as the legacy v1 format (12-byte nonce followed by a
single GCM blob). -/
def decrypt_file (key input : Bytes) : Except String Bytes :=
  if input.length < 4 then .error "Failed to read file header"
  else if input.take 4 = VAULT_MAGIC then
    let rest := input.drop 4
    if rest.length < NONCE_SIZE then .error "Failed to read nonce"
    else
      let baseNonce := rest.take NONCE_SIZE
      let rest2 := rest.drop NONCE_SIZE
      if rest2.length < 8 then .error "Failed to read file size"
      else
        let expectedSize := fromLeBytes (rest2.take 8)
        match decryptLoop key baseNonce (rest2.drop 8) 0 [] with
        | .error e => .error e
        | .ok total =>
            if total.length = expectedSize then .ok total
            else .error ("File size mismatch: expected " ++ toString expectedSize ++
              " bytes, got " ++ toString total.length ++ " bytes")
  else
    if input.length < NONCE_SIZE then .error "Failed to read legacy nonce"
    else
      let nonce := input.take NONCE_SIZE
      let ct := input.drop NONCE_SIZE
      match gcmDecrypt key nonce ct with
      | none => .error "Decryption failed - invalid PIN or corrupted file"
      | some pt => .ok pt


theorem encryptChunks_empty (key baseNonce : Bytes) (i : Nat) :
    encryptChunks key baseNonce [] i = [] := by
  simp [encryptChunks]

theorem encryptChunks_cons (key baseNonce : Bytes) (pt : Bytes) (hpt : ¬ pt.isEmpty = true)
    (i : Nat) :
    encryptChunks key baseNonce pt i =
      leBytes (gcmEncrypt key (chunkNonce baseNonce i) (pt.take CHUNK_SIZE)).length 4 ++
        gcmEncrypt key (chunkNonce baseNonce i) (pt.take CHUNK_SIZE) ++
        encryptChunks key baseNonce (pt.drop CHUNK_SIZE) (i + 1) := by
  rw [encryptChunks]
  simp [hpt]

theorem decryptLoop_encryptChunks (key baseNonce : Bytes) (hkey : key.length = 32)
    (pt : Bytes) (i : Nat) :
    ∀ acc, decryptLoop key baseNonce (encryptChunks key baseNonce pt i) i acc = .ok (acc ++ pt) := by
  induction pt, i using encryptChunks.induct key baseNonce with
  | case1 pt i hpt =>
    intro acc
    have hnil : pt = [] := List.isEmpty_iff.mp hpt
    subst hnil
    rw [encryptChunks_empty, decryptLoop]
    simp
  | case2 pt i hpt ih =>
    intro acc
    set chunk := pt.take CHUNK_SIZE with hchunk
    set ct := gcmEncrypt key (chunkNonce baseNonce i) chunk with hct
    have hctlen : ct.length = chunk.length + 44 := by
      simp [hct, gcmEncrypt, hkey, chunkNonce_length, NONCE_SIZE]
    have hchlen : chunk.length ≤ CHUNK_SIZE := by
      simp [hchunk]
    have hctlt : ct.length < 256 ^ 4 := by
      simp only [CHUNK_SIZE] at hchlen
      norm_num
      omega
    have hbody := encryptChunks_cons key baseNonce pt hpt i
    rw [← hchunk, ← hct] at hbody
    rw [hbody, decryptLoop]
    have hlen4 : (leBytes ct.length 4).length = 4 := leBytes_length ..
    have htake4 : (leBytes ct.length 4 ++ (ct ++ encryptChunks key baseNonce (pt.drop CHUNK_SIZE) (i + 1))).take 4 = leBytes ct.length 4 := by
      exact List.take_left' hlen4
    have hdrop4 : (leBytes ct.length 4 ++ (ct ++ encryptChunks key baseNonce (pt.drop CHUNK_SIZE) (i + 1))).drop 4 = ct ++ encryptChunks key baseNonce (pt.drop CHUNK_SIZE) (i + 1) := by
      exact List.drop_left' hlen4
    simp only [List.append_assoc, htake4, hdrop4, fromLeBytes_leBytes, Nat.mod_eq_of_lt hctlt]
    have hnlt : ¬ (leBytes ct.length 4 ++ (ct ++ encryptChunks key baseNonce (pt.drop CHUNK_SIZE) (i + 1))).length < 4 := by
      simp [hlen4]
    have hz : ¬ ct.length = 0 := by omega
    have hrestlen : ¬ (ct ++ encryptChunks key baseNonce (pt.drop CHUNK_SIZE) (i + 1)).length < ct.length := by
      simp
    rw [if_neg hnlt, dif_neg hz, if_neg hrestlen]
    have htakect : (ct ++ encryptChunks key baseNonce (pt.drop CHUNK_SIZE) (i + 1)).take ct.length = ct := List.take_left ..
    have hdropct : (ct ++ encryptChunks key baseNonce (pt.drop CHUNK_SIZE) (i + 1)).drop ct.length = encryptChunks key baseNonce (pt.drop CHUNK_SIZE) (i + 1) := List.drop_left ..
    rw [htakect, hdropct, hct, gcmDecrypt_gcmEncrypt]
    show decryptLoop key baseNonce (encryptChunks key baseNonce (pt.drop CHUNK_SIZE) (i + 1))
        (i + 1) (acc ++ chunk) = Except.ok (acc ++ pt)
    rw [ih (acc ++ chunk), List.append_assoc, hchunk, List.take_append_drop]

theorem decrypt_encrypt (key baseNonce pt : Bytes) (hkey : key.length = 32)
    (hnonce : baseNonce.length = 12) (hsize : pt.length < 2 ^ 64) :
    decrypt_file key (encrypt_file key baseNonce pt) = .ok pt := by
  have h1 : encrypt_file key baseNonce pt =
      VAULT_MAGIC ++ (baseNonce ++ (leBytes pt.length 8 ++ encryptChunks key baseNonce pt 0)) := by
    simp [encrypt_file]
  have hmagic4 : (VAULT_MAGIC : Bytes).length = 4 := rfl
  have htake4 : (VAULT_MAGIC ++ (baseNonce ++ (leBytes pt.length 8 ++ encryptChunks key baseNonce pt 0))).take 4 = VAULT_MAGIC := List.take_left' hmagic4
  have hdrop4 : (VAULT_MAGIC ++ (baseNonce ++ (leBytes pt.length 8 ++ encryptChunks key baseNonce pt 0))).drop 4 = baseNonce ++ (leBytes pt.length 8 ++ encryptChunks key baseNonce pt 0) := List.drop_left' hmagic4
  have htaken : (baseNonce ++ (leBytes pt.length 8 ++ encryptChunks key baseNonce pt 0)).take 12 = baseNonce := List.take_left' hnonce
  have hdropn : (baseNonce ++ (leBytes pt.length 8 ++ encryptChunks key baseNonce pt 0)).drop 12 = leBytes pt.length 8 ++ encryptChunks key baseNonce pt 0 := List.drop_left' hnonce
  have hle8 : (leBytes pt.length 8).length = 8 := leBytes_length ..
  have htake8 : (leBytes pt.length 8 ++ encryptChunks key baseNonce pt 0).take 8 = leBytes pt.length 8 := List.take_left' hle8
  have hdrop8 : (leBytes pt.length 8 ++ encryptChunks key baseNonce pt 0).drop 8 = encryptChunks key baseNonce pt 0 := List.drop_left' hle8
  have hsz : fromLeBytes (leBytes pt.length 8) = pt.length := by
    rw [fromLeBytes_leBytes]
    exact Nat.mod_eq_of_lt (by norm_num at hsize ⊢; omega)
  rw [h1]
  have hl1 : ¬ (VAULT_MAGIC ++ (baseNonce ++ (leBytes pt.length 8 ++ encryptChunks key baseNonce pt 0))).length < 4 := by
    simp only [List.length_append, hmagic4, hnonce, hle8]
    omega
  have hl2 : ¬ (baseNonce ++ (leBytes pt.length 8 ++ encryptChunks key baseNonce pt 0)).length < 12 := by
    simp only [List.length_append, hnonce, hle8]
    omega
  have hl3 : ¬ (leBytes pt.length 8 ++ encryptChunks key baseNonce pt 0).length < 8 := by
    simp only [List.length_append, hle8]
    omega
  simp only [decrypt_file, NONCE_SIZE, htake4, hdrop4, htaken, hdropn, htake8, hdrop8, hsz,
    if_neg hl1, if_neg hl2, if_neg hl3, eq_self_iff_true, if_true,
    decryptLoop_encryptChunks key baseNonce hkey pt 0 []]
  simp

theorem decrypt_encrypt_wrong_key (key key2 baseNonce pt : Bytes) (hkey : key.length = 32)
    (hkey2 : key2.length = 32) (hne : key ≠ key2) (hnonce : baseNonce.length = 12)
    (hpt : pt ≠ []) :
    decrypt_file key2 (encrypt_file key baseNonce pt) =
      .error "Decryption failed at chunk 0 - invalid PIN or corrupted file" := by
  set chunk := pt.take CHUNK_SIZE with hchunk
  set ct := gcmEncrypt key (chunkNonce baseNonce 0) chunk with hct
  have hctlen : ct.length = chunk.length + 44 := by
    simp [hct, gcmEncrypt, hkey, chunkNonce_length, NONCE_SIZE]
  have hchlen : chunk.length ≤ CHUNK_SIZE := by simp [hchunk]
  have hctlt : ct.length < 256 ^ 4 := by
    simp only [CHUNK_SIZE] at hchlen
    norm_num
    omega
  have hpte : ¬ pt.isEmpty = true := by simpa [List.isEmpty_iff] using hpt
  have hbody := encryptChunks_cons key baseNonce pt hpte 0
  rw [← hchunk, ← hct] at hbody
  have h1 : encrypt_file key baseNonce pt =
      VAULT_MAGIC ++ (baseNonce ++ (leBytes pt.length 8 ++
        (leBytes ct.length 4 ++ (ct ++ encryptChunks key baseNonce (pt.drop CHUNK_SIZE) 1)))) := by
    simp [encrypt_file, hbody]
  have hmagic4 : (VAULT_MAGIC : Bytes).length = 4 := rfl
  have hle8 : (leBytes pt.length 8).length = 8 := leBytes_length ..
  have hle4 : (leBytes ct.length 4).length = 4 := leBytes_length ..
  have htake4 : (VAULT_MAGIC ++ (baseNonce ++ (leBytes pt.length 8 ++ (leBytes ct.length 4 ++ (ct ++ encryptChunks key baseNonce (pt.drop CHUNK_SIZE) 1))))).take 4 = VAULT_MAGIC := List.take_left' hmagic4
  have hdrop4 : (VAULT_MAGIC ++ (baseNonce ++ (leBytes pt.length 8 ++ (leBytes ct.length 4 ++ (ct ++ encryptChunks key baseNonce (pt.drop CHUNK_SIZE) 1))))).drop 4 = baseNonce ++ (leBytes pt.length 8 ++ (leBytes ct.length 4 ++ (ct ++ encryptChunks key baseNonce (pt.drop CHUNK_SIZE) 1))) := List.drop_left' hmagic4
  have htaken : (baseNonce ++ (leBytes pt.length 8 ++ (leBytes ct.length 4 ++ (ct ++ encryptChunks key baseNonce (pt.drop CHUNK_SIZE) 1)))).take 12 = baseNonce := List.take_left' hnonce
  have hdropn : (baseNonce ++ (leBytes pt.length 8 ++ (leBytes ct.length 4 ++ (ct ++ encryptChunks key baseNonce (pt.drop CHUNK_SIZE) 1)))).drop 12 = leBytes pt.length 8 ++ (leBytes ct.length 4 ++ (ct ++ encryptChunks key baseNonce (pt.drop CHUNK_SIZE) 1)) := List.drop_left' hnonce
  have htake8 : (leBytes pt.length 8 ++ (leBytes ct.length 4 ++ (ct ++ encryptChunks key baseNonce (pt.drop CHUNK_SIZE) 1))).take 8 = leBytes pt.length 8 := List.take_left' hle8
  have hdrop8 : (leBytes pt.length 8 ++ (leBytes ct.length 4 ++ (ct ++ encryptChunks key baseNonce (pt.drop CHUNK_SIZE) 1))).drop 8 = leBytes ct.length 4 ++ (ct ++ encryptChunks key baseNonce (pt.drop CHUNK_SIZE) 1) := List.drop_left' hle8
  rw [h1]
  have hl1 : ¬ (VAULT_MAGIC ++ (baseNonce ++ (leBytes pt.length 8 ++ (leBytes ct.length 4 ++ (ct ++ encryptChunks key baseNonce (pt.drop CHUNK_SIZE) 1))))).length < 4 := by
    simp only [List.length_append, hmagic4, hnonce, hle8, hle4]
    omega
  have hl2 : ¬ (baseNonce ++ (leBytes pt.length 8 ++ (leBytes ct.length 4 ++ (ct ++ encryptChunks key baseNonce (pt.drop CHUNK_SIZE) 1)))).length < 12 := by
    simp only [List.length_append, hnonce, hle8, hle4]
    omega
  have hl3 : ¬ (leBytes pt.length 8 ++ (leBytes ct.length 4 ++ (ct ++ encryptChunks key baseNonce (pt.drop CHUNK_SIZE) 1))).length < 8 := by
    simp only [List.length_append, hle8, hle4]
    omega
  have hloop : decryptLoop key2 baseNonce
      (leBytes ct.length 4 ++ (ct ++ encryptChunks key baseNonce (pt.drop CHUNK_SIZE) 1)) 0 [] =
      .error ("Decryption failed at chunk " ++ toString 0 ++ " - invalid PIN or corrupted file") := by
    rw [decryptLoop]
    have htk : (leBytes ct.length 4 ++ (ct ++ encryptChunks key baseNonce (pt.drop CHUNK_SIZE) 1)).take 4 = leBytes ct.length 4 := List.take_left' hle4
    have hdp : (leBytes ct.length 4 ++ (ct ++ encryptChunks key baseNonce (pt.drop CHUNK_SIZE) 1)).drop 4 = ct ++ encryptChunks key baseNonce (pt.drop CHUNK_SIZE) 1 := List.drop_left' hle4
    simp only [htk, hdp, fromLeBytes_leBytes, Nat.mod_eq_of_lt hctlt]
    have hnlt : ¬ (leBytes ct.length 4 ++ (ct ++ encryptChunks key baseNonce (pt.drop CHUNK_SIZE) 1)).length < 4 := by
      simp [hle4]
    have hz : ¬ ct.length = 0 := by omega
    have hrest : ¬ (ct ++ encryptChunks key baseNonce (pt.drop CHUNK_SIZE) 1).length < ct.length := by
      simp
    rw [if_neg hnlt, dif_neg hz, if_neg hrest]
    have htkct : (ct ++ encryptChunks key baseNonce (pt.drop CHUNK_SIZE) 1).take ct.length = ct :=
      List.take_left ..
    rw [htkct, hct, gcmDecrypt_wrong_key key key2 (chunkNonce baseNonce 0) chunk (hkey.trans hkey2.symm) hne]
  simp only [decrypt_file, NONCE_SIZE, htake4, hdrop4, htaken, hdropn, htake8, hdrop8,
    if_neg hl1, if_neg hl2, if_neg hl3, eq_self_iff_true, if_true, hloop]
  rfl

theorem decrypt_encrypt_nil (key key2 baseNonce : Bytes) (hnonce : baseNonce.length = 12) :
    decrypt_file key2 (encrypt_file key baseNonce []) = .ok [] := by
  have h1 : encrypt_file key baseNonce [] =
      VAULT_MAGIC ++ (baseNonce ++ (leBytes 0 8 ++ ([] : Bytes))) := by
    simp [encrypt_file, encryptChunks_empty, leBytes]
  have hmagic4 : (VAULT_MAGIC : Bytes).length = 4 := rfl
  have hle8 : (leBytes (0 : Nat) 8).length = 8 := leBytes_length ..
  have htake4 : (VAULT_MAGIC ++ (baseNonce ++ (leBytes 0 8 ++ ([] : Bytes)))).take 4 = VAULT_MAGIC := List.take_left' hmagic4
  have hdrop4 : (VAULT_MAGIC ++ (baseNonce ++ (leBytes 0 8 ++ ([] : Bytes)))).drop 4 = baseNonce ++ (leBytes 0 8 ++ ([] : Bytes)) := List.drop_left' hmagic4
  have htaken : (baseNonce ++ (leBytes 0 8 ++ ([] : Bytes))).take 12 = baseNonce := List.take_left' hnonce
  have hdropn : (baseNonce ++ (leBytes 0 8 ++ ([] : Bytes))).drop 12 = leBytes 0 8 ++ ([] : Bytes) := List.drop_left' hnonce
  have htake8 : (leBytes 0 8 ++ ([] : Bytes)).take 8 = leBytes 0 8 := List.take_left' hle8
  have hdrop8 : (leBytes 0 8 ++ ([] : Bytes)).drop 8 = ([] : Bytes) := List.drop_left' hle8
  have hsz : fromLeBytes (leBytes 0 8) = 0 := by simp [fromLeBytes_leBytes]
  have hl1 : ¬ (VAULT_MAGIC ++ (baseNonce ++ (leBytes 0 8 ++ ([] : Bytes)))).length < 4 := by
    simp only [List.length_append, hmagic4, hnonce, hle8, List.length_nil]
    omega
  have hl2 : ¬ (baseNonce ++ (leBytes 0 8 ++ ([] : Bytes))).length < 12 := by
    simp only [List.length_append, hnonce, hle8, List.length_nil]
    omega
  have hl3 : ¬ (leBytes 0 8 ++ ([] : Bytes)).length < 8 := by
    simp only [List.length_append, hle8, List.length_nil]
    omega
  have hloop : decryptLoop key2 baseNonce [] 0 [] = .ok [] := by
    rw [decryptLoop]
    simp
  rw [h1]
  simp only [decrypt_file, NONCE_SIZE, htake4, hdrop4, htaken, hdropn, htake8, hdrop8, hsz,
    if_neg hl1, if_neg hl2, if_neg hl3, eq_self_iff_true, if_true, hloop]
  simp

/-- C1 counterexample: the claim fails at the empty byte sequence.  The v2
encryption of the empty plaintext is a bare header with no authenticated
chunk, so `decrypt_file` with a DIFFERENT 32-byte key succeeds (returning the
empty plaintext) instead of failing with "invalid PIN or corrupted file". -/
theorem c1_counterexample :
    (List.replicate 32 0 : Bytes) ≠ (1 :: List.replicate 31 0 : Bytes) ∧
    decrypt_file (1 :: List.replicate 31 0)
      (encrypt_file (List.replicate 32 0) (List.replicate 12 0) []) = .ok [] := by
  constructor
  · decide
  · exact decrypt_encrypt_nil (List.replicate 32 0) (1 :: List.replicate 31 0)
      (List.replicate 12 0) (by simp)

theorem encrypt_file_take_magic (key baseNonce pt : Bytes) :
    (encrypt_file key baseNonce pt).take 4 = VAULT_MAGIC := by
  have h : encrypt_file key baseNonce pt =
      VAULT_MAGIC ++ (baseNonce ++ (leBytes pt.length 8 ++ encryptChunks key baseNonce pt 0)) := by
    simp [encrypt_file]
  rw [h]
  exact List.take_left' rfl

/-- C1 (corrected): for every 32-byte key, 12-byte base nonce and plaintext
`P`, decrypting the v2 chunked encryption of `P` with the same key yields
exactly `P`; and for every NONEMPTY `P`, decrypting it with a different
32-byte key fails with the error "Decryption failed at chunk 0 - invalid PIN
or corrupted file".  (The original claim asserted the wrong-key failure for
every `P`; the empty `P` is a genuine exception, see `c1_counterexample`.) -/
theorem c1_roundtrip_and_wrong_pin :
    (∀ key baseNonce pt : Bytes, key.length = 32 → baseNonce.length = 12 →
        pt.length < 2 ^ 64 →
        decrypt_file key (encrypt_file key baseNonce pt) = .ok pt) ∧
    (∀ key key2 baseNonce pt : Bytes, key.length = 32 → key2.length = 32 →
        key ≠ key2 → baseNonce.length = 12 → pt ≠ [] →
        decrypt_file key2 (encrypt_file key baseNonce pt) =
          .error "Decryption failed at chunk 0 - invalid PIN or corrupted file") := by
  constructor
  · intro key baseNonce pt hkey hnonce hsize
    exact decrypt_encrypt key baseNonce pt hkey hnonce hsize
  · intro key key2 baseNonce pt hkey hkey2 hne hnonce hpt
    exact decrypt_encrypt_wrong_key key key2 baseNonce pt hkey hkey2 hne hnonce hpt

theorem c1_roundtrip_and_wrong_pin_witness :
    decrypt_file (List.replicate 32 0)
      (encrypt_file (List.replicate 32 0) (List.replicate 12 0) [7, 7]) = .ok [7, 7] ∧
    decrypt_file (1 :: List.replicate 31 0)
      (encrypt_file (List.replicate 32 0) (List.replicate 12 0) [7, 7]) =
        .error "Decryption failed at chunk 0 - invalid PIN or corrupted file" := by
  constructor
  · exact c1_roundtrip_and_wrong_pin.1 (List.replicate 32 0) (List.replicate 12 0) [7, 7]
      (by simp) (by simp) (by norm_num)
  · exact c1_roundtrip_and_wrong_pin.2 (List.replicate 32 0) (1 :: List.replicate 31 0)
      (List.replicate 12 0) [7, 7] (by simp) (by simp) (by decide) (by simp) (by simp)

/-- C2: a v2 decryption succeeds only when the total decrypted length equals
the `plaintext_size` stored in the header (the 8 little-endian bytes at
offset 16); and when every chunk authenticates but the total length differs
from the stored size, `decrypt_file` rejects the file with the
"File size mismatch" error. -/
theorem c2_trailing_size_check :
    (∀ key input pt : Bytes, input.take 4 = VAULT_MAGIC →
        decrypt_file key input = .ok pt →
        pt.length = fromLeBytes ((input.drop 16).take 8)) ∧
    (∀ key input total : Bytes, input.take 4 = VAULT_MAGIC → 24 ≤ input.length →
        decryptLoop key ((input.drop 4).take NONCE_SIZE) (input.drop 24) 0 [] = .ok total →
        total.length ≠ fromLeBytes ((input.drop 16).take 8) →
        decrypt_file key input = .error ("File size mismatch: expected " ++
          toString (fromLeBytes ((input.drop 16).take 8)) ++ " bytes, got " ++
          toString total.length ++ " bytes")) := by
  have hdd : ∀ (input : Bytes), (input.drop 4).drop NONCE_SIZE = input.drop 16 := by
    intro input
    rw [List.drop_drop]
    norm_num [NONCE_SIZE]
  have hdd2 : ∀ (input : Bytes), ((input.drop 4).drop NONCE_SIZE).drop 8 = input.drop 24 := by
    intro input
    rw [List.drop_drop, List.drop_drop]
    norm_num [NONCE_SIZE]
  constructor
  · intro key input pt hmagic hok
    simp only [decrypt_file] at hok
    by_cases h4 : input.length < 4
    · rw [if_pos h4] at hok
      exact absurd hok (by simp)
    rw [if_neg h4, if_pos hmagic] at hok
    by_cases hn : (input.drop 4).length < NONCE_SIZE
    · rw [if_pos hn] at hok
      exact absurd hok (by simp)
    rw [if_neg hn] at hok
    by_cases h8 : ((input.drop 4).drop NONCE_SIZE).length < 8
    · rw [if_pos h8] at hok
      exact absurd hok (by simp)
    rw [if_neg h8] at hok
    rcases hloop : decryptLoop key ((input.drop 4).take NONCE_SIZE)
        (((input.drop 4).drop NONCE_SIZE).drop 8) 0 [] with e | total
    · rw [hloop] at hok
      exact absurd hok (by simp)
    · rw [hloop] at hok
      rw [hdd input] at hok
      by_cases hsz : total.length = fromLeBytes ((input.drop 16).take 8)
      · simp only [hsz, eq_self_iff_true, if_true] at hok
        have hpt : total = pt := by
          simpa using hok
        rw [← hpt, hsz]
      · exact absurd hok (by simp [hsz])
  · intro key input total hmagic hlen hloop hne
    simp only [decrypt_file]
    have h4 : ¬ input.length < 4 := by omega
    have hn : ¬ (input.drop 4).length < NONCE_SIZE := by
      simp only [List.length_drop, NONCE_SIZE]
      omega
    have h8 : ¬ ((input.drop 4).drop NONCE_SIZE).length < 8 := by
      simp only [List.length_drop, NONCE_SIZE]
      omega
    rw [if_neg h4, if_pos hmagic, if_neg hn, if_neg h8, hdd2 input, hloop]
    simp only [hdd input]
    rw [if_neg hne]

theorem c2_trailing_size_check_witness :
    decrypt_file [] (VAULT_MAGIC ++ (List.replicate 12 0 ++ leBytes 0 8)) = .ok [] ∧
    ([] : Bytes).length =
      fromLeBytes (((VAULT_MAGIC ++ (List.replicate 12 0 ++ leBytes 0 8)).drop 16).take 8) ∧
    decrypt_file [] (VAULT_MAGIC ++ (List.replicate 12 0 ++ leBytes 5 8)) =
      .error "File size mismatch: expected 5 bytes, got 0 bytes" := by
  refine ⟨?_, ?_, ?_⟩
  · have h := decrypt_encrypt_nil [] [] (List.replicate 12 0) (by simp)
    have he : encrypt_file [] (List.replicate 12 0) [] =
        VAULT_MAGIC ++ (List.replicate 12 0 ++ leBytes 0 8) := by
      simp [encrypt_file, encryptChunks_empty, leBytes]
    rw [he] at h
    exact h
  · have h := decrypt_encrypt_nil [] [] (List.replicate 12 0) (by simp)
    have he : encrypt_file [] (List.replicate 12 0) [] =
        VAULT_MAGIC ++ (List.replicate 12 0 ++ leBytes 0 8) := by
      simp [encrypt_file, encryptChunks_empty, leBytes]
    rw [he] at h
    exact (c2_trailing_size_check.1 [] (VAULT_MAGIC ++ (List.replicate 12 0 ++ leBytes 0 8)) []
      (by decide) h).symm ▸ rfl
  · have h := c2_trailing_size_check.2 [] (VAULT_MAGIC ++ (List.replicate 12 0 ++ leBytes 5 8)) []
      (by decide) (by decide)
      (by rw [show ((VAULT_MAGIC ++ (List.replicate 12 0 ++ leBytes 5 8)) : Bytes).drop 24 = [] from by decide]
          rw [decryptLoop]
          simp)
      (by decide)
    rw [h]
    rfl

/-- `ENCRYPTED_EXTENSION` (vault.rs:24). -/
def ENCRYPTED_EXTENSION : String := ".slasshy"

/-- `LEGACY_EXTENSION` (vault.rs:25), kept for backward compatibility. -/
def LEGACY_EXTENSION : String := ".vault"

/-- The encrypted file name generated by `vault_add_file` and
`vault_add_folder` (vault.rs:530-533, 1113-1116): the fresh UUID followed by
the encrypted extension. -/
def addFileEncryptedName (file_id : String) : String :=
  file_id ++ ENCRYPTED_EXTENSION

/-- The file-name resolution of `vault_delete_file` (vault.rs:679-710) over
an abstract existence predicate on the vault files directory: the new
extension is tried first, then the legacy one. -/
def deleteTarget (fileExists : String → Bool) (file_id : String) : Option String :=
  let new_name := file_id ++ ".slasshy"
  let legacy_name := file_id ++ ".vault"
  if fileExists new_name then some new_name
  else if fileExists legacy_name then some legacy_name
  else none

/-- Rust's `str::ends_with`, over the character lists of the strings. -/
def strEndsWith (s suffix : String) : Bool :=
  List.isSuffixOf suffix.data s.data

/-- `vault_check_local_file` (vault.rs:869-887): checks the given name, then
the alternate extension. -/
def checkLocalFile (fileExists : String → Bool) (encrypted_name : String) : Bool :=
  if fileExists encrypted_name then true
  else if strEndsWith encrypted_name ".slasshy" then
    fileExists (encrypted_name.replace ".slasshy" ".vault")
  else if strEndsWith encrypted_name ".vault" then
    fileExists (encrypted_name.replace ".vault" ".slasshy")
  else false

/-- C9 counterexample: the stored name uses extension ".slasshy", not ".enc"
as the claim states.  At `id = "abc"` the name produced by `vault_add_file`
differs from `id ++ ".enc"`. -/
theorem c9_counterexample :
    addFileEncryptedName "abc" ≠ "abc" ++ ".enc" ∧
    addFileEncryptedName "abc" = "abc.slasshy" := by
  constructor
  · decide
  · rfl

/-- C9 (corrected): every file or folder added to the vault is stored under
`id ++ ".slasshy"` (not `id ++ ".enc"`); the legacy ".vault" extension is
accepted on read (`vault_check_local_file` falls back to the alternate
extension) and on delete (`vault_delete_file` tries `id ++ ".slasshy"` first
and then `id ++ ".vault"`). -/
theorem c9_extension_amended :
    (∀ id : String, addFileEncryptedName id = id ++ ".slasshy") ∧
    (∀ (fileExists : String → Bool) (id : String),
        fileExists (id ++ ".slasshy") = false → fileExists (id ++ ".vault") = true →
        deleteTarget fileExists id = some (id ++ ".vault")) ∧
    (∀ (fileExists : String → Bool) (id : String),
        fileExists (id ++ ".slasshy") = true →
        deleteTarget fileExists id = some (id ++ ".slasshy")) ∧
    (∀ (fileExists : String → Bool) (name : String),
        fileExists name = false → strEndsWith name ".slasshy" = true →
        checkLocalFile fileExists name = fileExists (name.replace ".slasshy" ".vault")) := by
  refine ⟨fun id => rfl, ?_, ?_, ?_⟩
  · intro fileExists id hnew hlegacy
    simp [deleteTarget, hnew, hlegacy]
  · intro fileExists id hnew
    simp [deleteTarget, hnew]
  · intro fileExists name hmiss hsuffix
    simp [checkLocalFile, hmiss, hsuffix]

theorem c9_extension_amended_witness :
    deleteTarget (fun n => n = "f.vault") "f" = some "f.vault" ∧
    deleteTarget (fun n => n = "f.slasshy") "f" = some "f.slasshy" ∧
    checkLocalFile (fun _ => false) "f.slasshy" = false := by
  refine ⟨?_, ?_, ?_⟩
  · exact c9_extension_amended.2.1 (fun n => n = "f.vault") "f" (by decide) (by decide)
  · exact c9_extension_amended.2.2.1 (fun n => n = "f.slasshy") "f" (by decide)
  · exact c9_extension_amended.2.2.2 (fun _ => false) "f.slasshy" rfl (by decide)

end Vault

/-! ## Host reputation store (src/src-tauri/src/host_reputation.rs)

The SQLite-backed record operations `record_success`, `record_failure` and
`record_connection_collapse` each read the current record (or the default for
an unknown host), update its fields, and write it back; the field updates are
modelled here as pure functions on the record.  `u8` fields live in `Nat`
(Rust saturating arithmetic maps to `Nat` truncated subtraction and explicit
caps); `u32` counters wrap modulo `2 ^ 32` as release-mode Rust does.
-/

namespace Reputation

structure HostReputation where
  domain : String
  max_stable_conns : Nat
  favored_protocol : String
  health_score : Nat
  supports_range : Bool
  avg_speed_kbps : Nat
  success_count : Nat
  failure_count : Nat
  last_updated : Int
deriving Repr, DecidableEq

/-- `HostReputation::default()` (host_reputation.rs:40-54), with the wall
clock passed in. -/
def defaultReputation (now : Int) : HostReputation :=
  { domain := ""
    max_stable_conns := 4
    favored_protocol := "http1"
    health_score := 50
    supports_range := true
    avg_speed_kbps := 0
    success_count := 0
    failure_count := 0
    last_updated := now }

/-- `record_success` (host_reputation.rs:166-188). -/
def record_success (rep : HostReputation) (speed_kbps : Nat) (connections_used : Nat)
    (now : Int) : HostReputation :=
  { rep with
    success_count := (rep.success_count + 1) % 2 ^ 32
    last_updated := now
    avg_speed_kbps :=
      if rep.avg_speed_kbps = 0 then speed_kbps
      else (rep.avg_speed_kbps * 9 + speed_kbps) % 2 ^ 32 / 10
    health_score := min (min (rep.health_score + 5) 255) 100
    max_stable_conns :=
      if rep.max_stable_conns < connections_used then connections_used
      else rep.max_stable_conns }

/-- `record_failure` (host_reputation.rs:191-211).  `health_score` uses
`saturating_sub`, which is `Nat` subtraction. -/
def record_failure (rep : HostReputation) (was_throttled was_range_error : Bool)
    (now : Int) : HostReputation :=
  { rep with
    failure_count := (rep.failure_count + 1) % 2 ^ 32
    last_updated := now
    health_score := rep.health_score - 10
    max_stable_conns :=
      if was_throttled then max (rep.max_stable_conns - 2) 1 else rep.max_stable_conns
    supports_range := if was_range_error then false else rep.supports_range }

/-- `record_connection_collapse` (host_reputation.rs:214-225). -/
def record_connection_collapse (rep : HostReputation) (collapsed_to : Nat)
    (now : Int) : HostReputation :=
  { rep with
    max_stable_conns :=
      if collapsed_to < rep.max_stable_conns then collapsed_to else rep.max_stable_conns
    last_updated := now }

/-- One record operation with its arguments. -/
inductive RepOp where
  | success (speed_kbps : Nat) (connections_used : Nat) (now : Int)
  | failure (was_throttled : Bool) (was_range_error : Bool) (now : Int)
  | collapse (collapsed_to : Nat) (now : Int)
deriving Repr, DecidableEq

def applyOp (rep : HostReputation) : RepOp → HostReputation
  | .success speed conns now => record_success rep speed conns now
  | .failure throttled rangeErr now => record_failure rep throttled rangeErr now
  | .collapse to_count now => record_connection_collapse rep to_count now

def applyOps (rep : HostReputation) (ops : List RepOp) : HostReputation :=
  ops.foldl applyOp rep

/-- C3 counterexample: from the default record, a single
`record_connection_collapse` with argument `0` drives `max_stable_conns` to
`0`, violating the claimed invariant `max_stable_conns ≥ 1`. -/
theorem c3_counterexample :
    (applyOps (defaultReputation 0) [RepOp.collapse 0 0]).max_stable_conns = 0 ∧
    ¬ 1 ≤ (applyOps (defaultReputation 0) [RepOp.collapse 0 0]).max_stable_conns := by
  constructor
  · rfl
  · decide

theorem applyOp_health (rep : HostReputation) (op : RepOp)
    (h : rep.health_score ≤ 100) : (applyOp rep op).health_score ≤ 100 := by
  cases op with
  | success speed conns now => simp [applyOp, record_success]
  | failure throttled rangeErr now =>
    simp only [applyOp, record_failure]
    omega
  | collapse to_count now => simpa [applyOp, record_connection_collapse] using h

theorem applyOp_conns (rep : HostReputation) (op : RepOp)
    (h : 1 ≤ rep.max_stable_conns)
    (hop : ∀ c n, op = RepOp.collapse c n → 1 ≤ c) :
    1 ≤ (applyOp rep op).max_stable_conns := by
  cases op with
  | success speed conns now =>
    simp only [applyOp, record_success]
    by_cases hc : rep.max_stable_conns < conns
    · simp [hc]; omega
    · simp [hc]; omega
  | failure throttled rangeErr now =>
    cases throttled <;> simp [applyOp, record_failure] <;> omega
  | collapse to_count now =>
    have hc := hop to_count now rfl
    simp only [applyOp, record_connection_collapse]
    by_cases hlt : to_count < rep.max_stable_conns
    · simpa [hlt] using hc
    · simpa [hlt] using h

/-- C3 (corrected): starting from the default record, after any sequence of
`record_success`, `record_failure` and `record_connection_collapse`
operations, `health_score` stays in `[0, 100]` (the lower bound holding by
the `Nat`/`u8` representation); and `max_stable_conns ≥ 1` holds PROVIDED
every `record_connection_collapse` argument is at least 1 (the watchdog
always passes `max(1, active/2)`).  An unrestricted collapse argument of `0`
breaks the bound, see `c3_counterexample`. -/
theorem c3_invariants_amended (ops : List RepOp) (t : Int)
    (hcollapse : ∀ c n, RepOp.collapse c n ∈ ops → 1 ≤ c) :
    (applyOps (defaultReputation t) ops).health_score ≤ 100 ∧
    1 ≤ (applyOps (defaultReputation t) ops).max_stable_conns := by
  have hgen : ∀ (ops : List RepOp) (rep : HostReputation),
      (∀ c n, RepOp.collapse c n ∈ ops → 1 ≤ c) →
      rep.health_score ≤ 100 → 1 ≤ rep.max_stable_conns →
      (applyOps rep ops).health_score ≤ 100 ∧ 1 ≤ (applyOps rep ops).max_stable_conns := by
    intro ops
    induction ops with
    | nil => intro rep _ h1 h2; exact ⟨h1, h2⟩
    | cons op rest ih =>
      intro rep hc h1 h2
      have hstep1 := applyOp_health rep op h1
      have hstep2 := applyOp_conns rep op h2 (fun c n heq => hc c n (by rw [heq]; exact List.mem_cons_self ..))
      exact ih (applyOp rep op) (fun c n hmem => hc c n (List.mem_cons_of_mem op hmem)) hstep1 hstep2
  exact hgen ops (defaultReputation t) hcollapse (by simp [defaultReputation]) (by simp [defaultReputation])

theorem c3_invariants_witness :
    (applyOps (defaultReputation 0)
        [RepOp.success 100 8 1, RepOp.failure true false 2, RepOp.collapse 2 3]).health_score ≤ 100 ∧
    1 ≤ (applyOps (defaultReputation 0)
        [RepOp.success 100 8 1, RepOp.failure true false 2, RepOp.collapse 2 3]).max_stable_conns :=
  c3_invariants_amended [RepOp.success 100 8 1, RepOp.failure true false 2, RepOp.collapse 2 3] 0
    (by
      intro c n hmem
      simp at hmem
      omega)

end Reputation

/-! ## Download router (src/src-tauri/src/download_router.rs)

`DownloadRouter::route` classifies the URL, reads the host reputation when a
manager is attached, probes the server, and decides.  The URL classification
and the network probe are effectful; the decision logic from
download_router.rs:289-395 is embedded as a pure function of their results.
-/

namespace Router

/-- `DownloadEngine` (health_metrics.rs:94-101). -/
inductive DownloadEngine where
  | SNDE
  | SNDESafe
  | MediaEngine
deriving Repr, DecidableEq, BEq

/-- `ProbeResult` (download_router.rs:64-82). -/
structure ProbeResult where
  success : Bool
  supports_range : Bool
  content_length : Option Nat
  content_type : Option String
  protocol : String
  response_time_ms : Nat
  server : Option String
  error : Option String
deriving Repr, DecidableEq

/-- `RoutingDecision` (download_router.rs:100-118). -/
structure RoutingDecision where
  engine : DownloadEngine
  recommended_connections : Nat
  reason : String
  force_http1 : Bool
  file_size : Option Nat
  host_reputation : Option Reputation.HostReputation
  probe_result : Option ProbeResult
  badge : String
deriving Repr

/-- `get_reputation` (host_reputation.rs:96-129) over the backing table
modelled as a partial map from domain to stored record: an absent row yields
the default record with the domain filled in. -/
def get_reputation (table : String → Option Reputation.HostReputation) (domain : String)
    (now : Int) : Reputation.HostReputation :=
  match table domain with
  | some rep => rep
  | none => { Reputation.defaultReputation now with domain := domain }

/-- The decision logic of `DownloadRouter::route` (download_router.rs:289-395)
as a function of the heuristic classifications, the reputation record the
router obtained (`none` when no manager is attached or the URL has no host),
and the probe result. -/
def route (is_media : Bool) (is_static : Bool)
    (host_reputation : Option Reputation.HostReputation)
    (probe_result : ProbeResult) : RoutingDecision :=
  if is_media then
    { engine := .MediaEngine
      recommended_connections := 1
      reason := "Media platform detected - using yt-dlp for best compatibility"
      force_http1 := false
      file_size := none
      host_reputation := none
      probe_result := none
      badge := "MEDIA ENGINE" }
  else if ¬ probe_result.success then
    { engine := .MediaEngine
      recommended_connections := 1
      reason := "Probe failed (" ++ (probe_result.error.getD "unknown error") ++
        "), using Media Engine as fallback"
      force_http1 := false
      file_size := none
      host_reputation := host_reputation
      probe_result := some probe_result
      badge := "MEDIA ENGINE" }
  else if probe_result.supports_range then
    let recommended_connections :=
      match host_reputation with
      | some rep => rep.max_stable_conns
      | none =>
        match probe_result.content_length with
        | some size =>
          if size > 100000000 then 8
          else if size > 10000000 then 6
          else if size > 1000000 then 4
          else 2
        | none => 2
    let engineBadge :=
      match host_reputation with
      | some rep =>
        if rep.health_score < 30 ∨ rep.max_stable_conns ≤ 1 then
          (DownloadEngine.SNDESafe, "SNDE SAFE")
        else (DownloadEngine.SNDE, "SNDE ACCELERATED")
      | none => (DownloadEngine.SNDE, "SNDE ACCELERATED")
    { engine := engineBadge.1
      recommended_connections := recommended_connections
      reason := "Range requests supported, " ++ toString recommended_connections ++
        " conn recommended (history: " ++
        (if host_reputation.isSome then "known host" else "new host") ++ ")"
      force_http1 := engineBadge.1 == DownloadEngine.SNDE
      file_size := probe_result.content_length
      host_reputation := host_reputation
      probe_result := some probe_result
      badge := engineBadge.2 }
  else if is_static then
    { engine := .SNDESafe
      recommended_connections := 1
      reason := "Static file detected but no Range support - using safe single connection"
      force_http1 := false
      file_size := probe_result.content_length
      host_reputation := host_reputation
      probe_result := some probe_result
      badge := "SNDE SAFE" }
  else
    { engine := .MediaEngine
      recommended_connections := 1
      reason := "No Range support and not a static file - Media Engine for safety"
      force_http1 := false
      file_size := probe_result.content_length
      host_reputation := host_reputation
      probe_result := some probe_result
      badge := "MEDIA ENGINE" }

/-- The probe of the spec scenario: HEAD succeeded, 500000000 bytes, range
supported. -/
def scenarioProbe : ProbeResult :=
  { success := true
    supports_range := true
    content_length := some 500000000
    content_type := none
    protocol := "http1.1"
    response_time_ms := 100
    server := none
    error := none }

/-- C6: when the probe succeeds with range support, the recommended
connection count is `max_stable_conns` whenever the router obtained a
reputation record, and otherwise the size-tiered default (8 above 100 MB,
6 above 10 MB, 4 above 1 MB, else 2); in the spec scenario (no reputation
record, 500000000 bytes, range support) the decision is the accelerated
native engine with 8 connections and `force_http1 = true`.  (The only caller
in the repository, downloader.rs:624, passes no reputation manager, so the
record-absent branch is the one exercised; when a manager IS attached,
`get_reputation` materialises the default record for unknown hosts.) -/
theorem c6_route_connections :
    (∀ (rep : Reputation.HostReputation) (is_static : Bool) (probe : ProbeResult),
        probe.success = true → probe.supports_range = true →
        (route false is_static (some rep) probe).recommended_connections =
          rep.max_stable_conns) ∧
    (∀ (is_static : Bool) (probe : ProbeResult) (size : Nat),
        probe.success = true → probe.supports_range = true →
        probe.content_length = some size →
        (route false is_static none probe).recommended_connections =
          (if size > 100000000 then 8 else if size > 10000000 then 6
           else if size > 1000000 then 4 else 2)) ∧
    ((route false true none scenarioProbe).engine = DownloadEngine.SNDE ∧
     (route false true none scenarioProbe).recommended_connections = 8 ∧
     (route false true none scenarioProbe).force_http1 = true ∧
     (route false true none scenarioProbe).file_size = some 500000000 ∧
     (route false true none scenarioProbe).badge = "SNDE ACCELERATED") := by
  refine ⟨?_, ?_, ?_⟩
  · intro rep is_static probe hs hr
    simp [route, hs, hr]
  · intro is_static probe size hs hr hcl
    simp [route, hs, hr, hcl]
  · refine ⟨rfl, rfl, rfl, rfl, rfl⟩

theorem c6_route_connections_witness :
    (route false true (some (Reputation.defaultReputation 0)) scenarioProbe).recommended_connections =
      (Reputation.defaultReputation 0).max_stable_conns ∧
    (route false true none scenarioProbe).recommended_connections = 8 := by
  constructor
  · exact c6_route_connections.1 (Reputation.defaultReputation 0) true scenarioProbe rfl rfl
  · exact c6_route_connections.2.1 true scenarioProbe 500000000 rfl rfl rfl

end Router

/-! ## Parallel native download engine (src/src-tauri/src/snde.rs) -/

namespace SNDE

def MAX_CONNECTIONS : Nat := 16

def MIN_CHUNK_SIZE : Nat := 1024 * 1024

/-- `ChunkWork` (snde.rs:66-78); `end` is a Lean keyword, hence `end_`. -/
structure ChunkWork where
  start : Nat
  end_ : Nat
  in_progress : Bool
  completed : Bool
  retries : Nat
deriving Repr, DecidableEq

/-- The `while start < total_size` loop of `create_chunks` (snde.rs:525-543).
All quantities are `u64` in the source and release-mode Rust wraps, so the
tentative chunk end is `(start + chunk_size - 1) % 2^64` before the `min`
with `total_size - 1` (at the call site `chunk_size ≥ MIN_CHUNK_SIZE ≥ 1`,
so `start + chunk_size ≥ 1` and this `Nat` expression matches the u64
wrap-around exactly).  Because a wrapped end can fall BELOW `start`, the next
start can move backwards and `total_size - start` is not a decreasing
measure; the loop is therefore written with explicit fuel.  One chunk is
pushed per iteration and, starting from 0, the iteration starts are
`k * chunk_size (mod 2^64)`, which reaches the exit window within
`2^64 / gcd(chunk_size, 2^64) ≤ 2^64` iterations; `create_chunks` passes
`2^64` fuel, so the fuel is never the reason the loop stops. -/
def createChunksLoop (chunk_size total_size : Nat) : Nat → Nat → List ChunkWork
  | 0, _ => []
  | fuel + 1, start =>
    if start < total_size then
      { start := start
        end_ := min ((start + chunk_size - 1) % 2 ^ 64) (total_size - 1)
        in_progress := false
        completed := false
        retries := 0 } ::
        createChunksLoop chunk_size total_size fuel
          (min ((start + chunk_size - 1) % 2 ^ 64) (total_size - 1) + 1)
    else []

/-- `create_chunks` (snde.rs:525-543): the chunk size is
`max(total_size / num_connections, MIN_CHUNK_SIZE)`. -/
def create_chunks (total_size : Nat) (num_connections : Nat) : List ChunkWork :=
  createChunksLoop (max (total_size / num_connections) MIN_CHUNK_SIZE) total_size (2 ^ 64) 0

/-- `Contig N a l`: the chunks of `l` tile `[a, N-1]` contiguously — each
chunk starts where the previous ended plus one, is nonempty, stays below `N`,
and the tiling ends exactly at `N - 1`. -/
def Contig (total_size : Nat) : Nat → List ChunkWork → Prop
  | a, [] => total_size ≤ a
  | a, c :: rest =>
      c.start = a ∧ a ≤ c.end_ ∧ c.end_ < total_size ∧ Contig total_size (c.end_ + 1) rest

theorem createChunksLoop_exit (cs ts fuel start : Nat) (h : ¬ start < ts) :
    createChunksLoop cs ts fuel start = [] := by
  cases fuel <;> simp [createChunksLoop, h]

theorem createChunksLoop_step (cs ts fuel start : Nat) (hf : 1 ≤ fuel) (h : start < ts) :
    createChunksLoop cs ts fuel start =
      { start := start
        end_ := min ((start + cs - 1) % 2 ^ 64) (ts - 1)
        in_progress := false
        completed := false
        retries := 0 } ::
        createChunksLoop cs ts (fuel - 1) (min ((start + cs - 1) % 2 ^ 64) (ts - 1) + 1) := by
  cases fuel with
  | zero => omega
  | succ f => simp [createChunksLoop, h]

theorem createChunksLoop_ne_nil (cs ts fuel start : Nat) (hf : 1 ≤ fuel) (h : start < ts) :
    createChunksLoop cs ts fuel start ≠ [] := by
  rw [createChunksLoop_step cs ts fuel start hf h]
  simp

theorem createChunksLoop_contig (cs ts : Nat) (hcs : 1 ≤ cs) (hnov : ts - 1 + cs ≤ 2 ^ 64) :
    ∀ fuel start, ts - start ≤ fuel → Contig ts start (createChunksLoop cs ts fuel start) := by
  intro fuel
  induction fuel with
  | zero =>
    intro start hf
    have h : ¬ start < ts := by omega
    rw [createChunksLoop_exit cs ts 0 start h]
    simpa [Contig] using by omega
  | succ f ih =>
    intro start hf
    by_cases h : start < ts
    · have hmod : (start + cs - 1) % 2 ^ 64 = start + cs - 1 :=
        Nat.mod_eq_of_lt (by omega)
      rw [createChunksLoop_step cs ts (f + 1) start (by omega) h, hmod]
      refine ⟨rfl, ?_, ?_, ?_⟩
      · simp only
        omega
      · simp only
        omega
      · show Contig ts (min (start + cs - 1) (ts - 1) + 1)
          (createChunksLoop cs ts f (min (start + cs - 1) (ts - 1) + 1))
        apply ih
        omega
    · rw [createChunksLoop_exit cs ts (f + 1) start h]
      simpa [Contig] using by omega

theorem createChunksLoop_sizes (cs ts : Nat) (hcs : 1 ≤ cs) (hnov : ts - 1 + cs ≤ 2 ^ 64) :
    ∀ fuel start, ts - start ≤ fuel →
      ∀ ch ∈ (createChunksLoop cs ts fuel start).dropLast, ch.end_ - ch.start + 1 = cs := by
  intro fuel
  induction fuel with
  | zero =>
    intro start hf
    have h : ¬ start < ts := by omega
    rw [createChunksLoop_exit cs ts 0 start h]
    simp
  | succ f ih =>
    intro start hf
    by_cases h : start < ts
    · have hmod : (start + cs - 1) % 2 ^ 64 = start + cs - 1 :=
        Nat.mod_eq_of_lt (by omega)
      rw [createChunksLoop_step cs ts (f + 1) start (by omega) h, hmod]
      by_cases hrest : min (start + cs - 1) (ts - 1) + 1 < ts
      · have hne : createChunksLoop cs ts (f + 1 - 1)
            (min (start + cs - 1) (ts - 1) + 1) ≠ [] :=
          createChunksLoop_ne_nil cs ts (f + 1 - 1) _ (by omega) hrest
        rw [List.dropLast_cons_of_ne_nil hne]
        intro ch hch
        rcases List.mem_cons.mp hch with hceq | hmem
        · rw [hceq]
          simp only
          omega
        · exact ih (min (start + cs - 1) (ts - 1) + 1) (by omega) ch hmem
      · rw [createChunksLoop_exit cs ts (f + 1 - 1) _ hrest]
        simp
    · rw [createChunksLoop_exit cs ts (f + 1) start h]
      simp

theorem createChunksLoop_size_bounds (cs ts : Nat) (hcs : 1 ≤ cs) (hnov : ts - 1 + cs ≤ 2 ^ 64) :
    ∀ fuel start, ts - start ≤ fuel →
      ∀ ch ∈ createChunksLoop cs ts fuel start,
        1 ≤ ch.end_ - ch.start + 1 ∧ ch.end_ - ch.start + 1 ≤ cs := by
  intro fuel
  induction fuel with
  | zero =>
    intro start hf
    have h : ¬ start < ts := by omega
    rw [createChunksLoop_exit cs ts 0 start h]
    simp
  | succ f ih =>
    intro start hf
    by_cases h : start < ts
    · have hmod : (start + cs - 1) % 2 ^ 64 = start + cs - 1 :=
        Nat.mod_eq_of_lt (by omega)
      rw [createChunksLoop_step cs ts (f + 1) start (by omega) h, hmod]
      intro ch hch
      rcases List.mem_cons.mp hch with hceq | hmem
      · rw [hceq]
        constructor
        · simp only
          omega
        · simp only
          omega
      · exact ih (min (start + cs - 1) (ts - 1) + 1) (by omega) ch hmem
    · rw [createChunksLoop_exit cs ts (f + 1) start h]
      simp

/-- C5 counterexample: at `total_size = 2^64 - 1` with 2 connections the
chunk size is `2^63 - 1`, and on the third loop iteration the u64 expression
`start + chunk_size - 1 = (2^64 - 2) + (2^63 - 1) - 1` wraps modulo `2^64`
to `2^63 - 4`: the loop emits the chunk `[2^64 - 2, 2^63 - 4]` with
`end < start`, so the chunk vector does not partition `[0, N-1]`
contiguously. -/
theorem c5_counterexample :
    (create_chunks (2 ^ 64 - 1) 2).get? 2 =
      some { start := 2 ^ 64 - 2, end_ := 2 ^ 63 - 4, in_progress := false,
             completed := false, retries := 0 } ∧
    (2 ^ 63 - 4 : Nat) < 2 ^ 64 - 2 ∧
    ¬ Contig (2 ^ 64 - 1) 0 (create_chunks (2 ^ 64 - 1) 2) := by
  have hcs : max ((2 ^ 64 - 1) / 2) MIN_CHUNK_SIZE = 2 ^ 63 - 1 := by
    simp only [MIN_CHUNK_SIZE]
    omega
  have h1 : createChunksLoop (2 ^ 63 - 1) (2 ^ 64 - 1) (2 ^ 64) 0 =
      { start := 0, end_ := 2 ^ 63 - 2, in_progress := false, completed := false,
        retries := 0 } ::
        createChunksLoop (2 ^ 63 - 1) (2 ^ 64 - 1) (2 ^ 64 - 1) (2 ^ 63 - 1) := by
    rw [createChunksLoop_step _ _ _ _ (by norm_num) (by norm_num)]
    have he : min ((0 + (2 ^ 63 - 1) - 1) % 2 ^ 64) (2 ^ 64 - 1 - 1) = 2 ^ 63 - 2 := by
      omega
    rw [he]
    norm_num
  have h2 : createChunksLoop (2 ^ 63 - 1) (2 ^ 64 - 1) (2 ^ 64 - 1) (2 ^ 63 - 1) =
      { start := 2 ^ 63 - 1, end_ := 2 ^ 64 - 3, in_progress := false, completed := false,
        retries := 0 } ::
        createChunksLoop (2 ^ 63 - 1) (2 ^ 64 - 1) (2 ^ 64 - 2) (2 ^ 64 - 2) := by
    rw [createChunksLoop_step _ _ _ _ (by norm_num) (by norm_num)]
    have he : min (((2 ^ 63 - 1) + (2 ^ 63 - 1) - 1) % 2 ^ 64) (2 ^ 64 - 1 - 1) =
        2 ^ 64 - 3 := by
      omega
    rw [he]
    norm_num
  have h3 : createChunksLoop (2 ^ 63 - 1) (2 ^ 64 - 1) (2 ^ 64 - 2) (2 ^ 64 - 2) =
      { start := 2 ^ 64 - 2, end_ := 2 ^ 63 - 4, in_progress := false, completed := false,
        retries := 0 } ::
        createChunksLoop (2 ^ 63 - 1) (2 ^ 64 - 1) (2 ^ 64 - 3) (2 ^ 63 - 3) := by
    rw [createChunksLoop_step _ _ _ _ (by norm_num) (by norm_num)]
    have he : min (((2 ^ 64 - 2) + (2 ^ 63 - 1) - 1) % 2 ^ 64) (2 ^ 64 - 1 - 1) =
        2 ^ 63 - 4 := by
      omega
    rw [he]
    norm_num
  have hlist : create_chunks (2 ^ 64 - 1) 2 =
      { start := 0, end_ := 2 ^ 63 - 2, in_progress := false, completed := false,
        retries := 0 } ::
      { start := 2 ^ 63 - 1, end_ := 2 ^ 64 - 3, in_progress := false, completed := false,
        retries := 0 } ::
      { start := 2 ^ 64 - 2, end_ := 2 ^ 63 - 4, in_progress := false, completed := false,
        retries := 0 } ::
        createChunksLoop (2 ^ 63 - 1) (2 ^ 64 - 1) (2 ^ 64 - 3) (2 ^ 63 - 3) := by
    simp only [create_chunks]
    rw [hcs, h1, h2, h3]
  refine ⟨?_, ?_, ?_⟩
  · rw [hlist]
    rfl
  · norm_num
  · rw [hlist]
    intro hcontig
    obtain ⟨-, -, -, hcontig⟩ := hcontig
    obtain ⟨-, -, -, hcontig⟩ := hcontig
    obtain ⟨-, hle, -, -⟩ := hcontig
    have hle2 : (2 ^ 64 - 3) + 1 ≤ (2 ^ 63 - 4 : Nat) := hle
    omega

/-- C5 (corrected): for every total size `N > 0` (a u64, so `N < 2^64`) and
connection count `c ≥ 1` such that the u64 expression
`start + chunk_size - 1` never overflows — i.e.
`N - 1 + max(N / c, MIN_CHUNK_SIZE) ≤ 2^64`, which holds in particular for
every `N ≤ 2^63` — `create_chunks` partitions `[0, N-1]` contiguously into
disjoint chunks; every chunk except the last has size exactly
`max(N / c, MIN_CHUNK_SIZE)` (hence at least 1 MiB); the last chunk absorbs
the remainder (the tiling ends exactly at `N - 1`, witnessed by `Contig`),
and no chunk exceeds the nominal chunk size.  Without the no-overflow
condition the claim is false of the program: the wrapped arithmetic emits a
chunk with `end < start`, see `c5_counterexample`. -/
theorem c5_create_chunks_partition_amended (N c : Nat) (hN : 0 < N) (hN64 : N < 2 ^ 64)
    (hc : 1 ≤ c) (hnov : N - 1 + max (N / c) MIN_CHUNK_SIZE ≤ 2 ^ 64) :
    create_chunks N c ≠ [] ∧
    Contig N 0 (create_chunks N c) ∧
    (∀ ch ∈ (create_chunks N c).dropLast,
        ch.end_ - ch.start + 1 = max (N / c) MIN_CHUNK_SIZE ∧
        MIN_CHUNK_SIZE ≤ ch.end_ - ch.start + 1) ∧
    (∀ ch ∈ create_chunks N c,
        1 ≤ ch.end_ - ch.start + 1 ∧
        ch.end_ - ch.start + 1 ≤ max (N / c) MIN_CHUNK_SIZE) := by
  have hcs : 1 ≤ max (N / c) MIN_CHUNK_SIZE :=
    le_trans (by norm_num [MIN_CHUNK_SIZE]) (Nat.le_max_right ..)
  have hfuel : N - 0 ≤ 2 ^ 64 := by omega
  refine ⟨?_, ?_, ?_, ?_⟩
  · exact createChunksLoop_ne_nil _ _ _ _ (by norm_num) hN
  · exact createChunksLoop_contig _ _ hcs hnov (2 ^ 64) 0 hfuel
  · intro ch hch
    have hsz := createChunksLoop_sizes _ _ hcs hnov (2 ^ 64) 0 hfuel ch hch
    refine ⟨hsz, ?_⟩
    rw [hsz]
    exact Nat.le_max_right ..
  · exact createChunksLoop_size_bounds _ _ hcs hnov (2 ^ 64) 0 hfuel

theorem c5_create_chunks_partition_amended_witness :
    create_chunks 5 2 ≠ [] ∧
    Contig 5 0 (create_chunks 5 2) ∧
    (∀ ch ∈ (create_chunks 5 2).dropLast,
        ch.end_ - ch.start + 1 = max (5 / 2) MIN_CHUNK_SIZE ∧
        MIN_CHUNK_SIZE ≤ ch.end_ - ch.start + 1) ∧
    (∀ ch ∈ create_chunks 5 2,
        1 ≤ ch.end_ - ch.start + 1 ∧
        ch.end_ - ch.start + 1 ≤ max (5 / 2) MIN_CHUNK_SIZE) :=
  c5_create_chunks_partition_amended 5 2 (by norm_num) (by norm_num) (by norm_num)
    (by simp only [MIN_CHUNK_SIZE]; omega)

/-- One item of the HTTP body stream of `download_chunk` (snde.rs:658-689):
either a received byte buffer or a stream error. -/
inductive StreamItem where
  | bytes (len : Nat)
  | streamErr
deriving Repr, DecidableEq

/-- The environment's answer to one chunk request of `download_chunk`
(snde.rs:622-692): the request itself may fail (send error or bad status), or
a body stream is delivered. -/
inductive ChunkResponse where
  | requestFailed
  | stream (items : List StreamItem)
deriving Repr, DecidableEq

/-- The body-streaming loop of `download_chunk` (snde.rs:658-689): each item
first checks the cancellation flag, a byte buffer is written and added to the
shared counter, a stream error aborts the chunk; end of stream returns
success.  Returns the chunk result and the new counter value. -/
def processStream (cancelled : Bool) : Nat → List StreamItem → Bool × Nat
  | counter, [] => (true, counter)
  | counter, item :: rest =>
    if cancelled then (false, counter)
    else
      match item with
      | .bytes len => processStream cancelled (counter + len) rest
      | .streamErr => (false, counter)

/-- The chunk-claim scan of `worker_loop` (snde.rs:563-574): index of the
first chunk that is not completed, not in progress, and has fewer than 5
retries. -/
def findClaim (chunks : List ChunkWork) : Option Nat :=
  chunks.findIdx? fun c => !c.completed && !c.in_progress && decide (c.retries < 5)

def modifyChunk : List ChunkWork → Nat → (ChunkWork → ChunkWork) → List ChunkWork
  | [], _, _ => []
  | c :: rest, 0, f => f c :: rest
  | c :: rest, n + 1, f => c :: modifyChunk rest n f

/-- The shared state of one SNDE download with a single worker: the chunk
vector (behind its mutex), the atomic downloaded-bytes counter, the atomic
cancellation flag, and the worker task's result once it has returned. -/
structure EngineState where
  chunks : List ChunkWork
  total_downloaded : Nat
  cancelled : Bool
  workerResult : Option Bool
deriving Repr, DecidableEq

/-- One iteration of `worker_loop` (snde.rs:546-619): exit with `true` when
cancelled; claim the first available chunk (sleep when none and not all
complete, exit with `true` when all complete); run `download_chunk`; mark the
chunk completed on success or clear `in_progress` and bump `retries` on
failure. -/
def workerIterationStep (st : EngineState) (resp : ChunkResponse) : EngineState :=
  match st.workerResult with
  | some _ => st
  | none =>
    if st.cancelled then { st with workerResult := some true }
    else
      match findClaim st.chunks with
      | none =>
        if st.chunks.all (·.completed) then { st with workerResult := some true }
        else st
      | some idx =>
        let chunks1 := modifyChunk st.chunks idx fun c => { c with in_progress := true }
        let outcome :=
          match resp with
          | .requestFailed => (false, st.total_downloaded)
          | .stream items => processStream st.cancelled st.total_downloaded items
        let chunks2 := modifyChunk chunks1 idx fun c =>
          if outcome.1 then { c with in_progress := false, completed := true }
          else { c with in_progress := false, retries := c.retries + 1 }
        { st with chunks := chunks2, total_downloaded := outcome.2 }

/-- An event of a single-worker SNDE run: the cancellation listener fires
(snde.rs:307-315), or the worker performs one loop iteration against the
environment's response. -/
inductive EngineEvent where
  | cancelSignal
  | workerIteration (resp : ChunkResponse)
deriving Repr, DecidableEq

def stepEngine (st : EngineState) : EngineEvent → EngineState
  | .cancelSignal => { st with cancelled := true }
  | .workerIteration resp => workerIterationStep st resp

def runEngine (init : EngineState) (events : List EngineEvent) : EngineState :=
  events.foldl stepEngine init

/-- The shared state right after `download` created the chunks and counters
(snde.rs:242-251), for a single worker. -/
def initEngineState (total_size : Nat) (num_connections : Nat) : EngineState :=
  { chunks := create_chunks total_size num_connections
    total_downloaded := 0
    cancelled := false
    workerResult := none }

/-- The final success computation of `download` (snde.rs:360-425):
`all_success` is the conjunction of the worker results, and the engine
reports success iff additionally the final counter equals the probed
Content-Length. -/
def downloadSuccess (workerResults : List Bool) (finalBytes totalSize : Nat) : Bool :=
  workerResults.all id && finalBytes == totalSize

theorem create_chunks_1000_1 :
    create_chunks 1000 1 =
      [{ start := 0, end_ := 999, in_progress := false, completed := false, retries := 0 }] := by
  have hcs : max (1000 / 1) MIN_CHUNK_SIZE = 1048576 := by
    simp only [MIN_CHUNK_SIZE]
    omega
  simp only [create_chunks]
  rw [hcs, createChunksLoop_step _ _ _ _ (by norm_num) (by norm_num)]
  have he : min ((0 + 1048576 - 1) % 2 ^ 64) (1000 - 1) = 999 := by omega
  rw [he, createChunksLoop_exit _ _ _ _ (by norm_num)]

/-- The schedule of the C4 counterexample: the single chunk's response streams
all 1000 requested bytes and then errors before a clean end of stream (so the
chunk is marked failed after the full byte count was added to the shared
counter); the user then cancels; the worker's next iteration observes the
flag and returns `true`. -/
def c4_events : List EngineEvent :=
  [EngineEvent.workerIteration (ChunkResponse.stream [StreamItem.bytes 1000, StreamItem.streamErr]),
   EngineEvent.cancelSignal,
   EngineEvent.workerIteration ChunkResponse.requestFailed]

/-- C4 counterexample: a cancelled single-connection run of a 1000-byte
download in which the stream delivered all bytes but errored at the end.  The
chunk is NOT marked completed and the run was cancelled, yet the final result
computation reports success, because `worker_loop` returns `true` on the
cancellation path and the counter equals the Content-Length. -/
theorem c4_counterexample :
    downloadSuccess
        [(runEngine (initEngineState 1000 1) c4_events).workerResult.getD false]
        (runEngine (initEngineState 1000 1) c4_events).total_downloaded 1000 = true ∧
    (runEngine (initEngineState 1000 1) c4_events).cancelled = true ∧
    (runEngine (initEngineState 1000 1) c4_events).chunks.all (·.completed) = false := by
  have hinit : initEngineState 1000 1 =
      { chunks := [{ start := 0, end_ := 999, in_progress := false, completed := false, retries := 0 }]
        total_downloaded := 0
        cancelled := false
        workerResult := none } := by
    simp [initEngineState, create_chunks_1000_1]
  rw [hinit]
  decide

theorem workerResult_true_of_some (st : EngineState) (e : EngineEvent)
    (h : st.workerResult = none ∨ st.workerResult = some true) :
    (stepEngine st e).workerResult = none ∨ (stepEngine st e).workerResult = some true := by
  cases e with
  | cancelSignal => simpa [stepEngine] using h
  | workerIteration resp =>
    rcases h with h | h
    · simp only [stepEngine, workerIterationStep, h]
      by_cases hcan : st.cancelled
      · simp [hcan]
      · simp only [hcan, if_false, Bool.false_eq_true]
        cases hclaim : findClaim st.chunks with
        | none =>
          by_cases hall : st.chunks.all (·.completed)
          · simp [hall]
          · simp [hall, h]
        | some idx => simp
    · simp [stepEngine, workerIterationStep, h]

/-- C4 (corrected): the final result of the engine reports success iff every
worker result is `true` AND the downloaded-bytes counter equals the probed
Content-Length; and in the single-worker trace model the worker result, when
the worker has returned, is ALWAYS `true` (`worker_loop` returns `true` both
on observing every chunk completed and on observing cancellation).  Chunk
completion is therefore not part of the success check: a cancelled or
retried run whose counter happens to equal the Content-Length reports
success, see `c4_counterexample`. -/
theorem c4_success_condition_amended :
    (∀ (workerResults : List Bool) (finalBytes totalSize : Nat),
        downloadSuccess workerResults finalBytes totalSize = true ↔
          (workerResults.all id = true ∧ finalBytes = totalSize)) ∧
    (∀ (total_size num_connections : Nat) (events : List EngineEvent) (r : Bool),
        (runEngine (initEngineState total_size num_connections) events).workerResult = some r →
        r = true) := by
  constructor
  · intro workerResults finalBytes totalSize
    simp [downloadSuccess]
  · intro total_size num_connections events r hr
    have hinv : ∀ (events : List EngineEvent) (st : EngineState),
        st.workerResult = none ∨ st.workerResult = some true →
        (runEngine st events).workerResult = none ∨
          (runEngine st events).workerResult = some true := by
      intro events
      induction events with
      | nil => intro st h; exact h
      | cons e rest ih =>
        intro st h
        exact ih (stepEngine st e) (workerResult_true_of_some st e h)
    have h := hinv events (initEngineState total_size num_connections) (Or.inl rfl)
    rcases h with h | h
    · rw [h] at hr
      exact absurd hr (by simp)
    · rw [h] at hr
      simpa using hr.symm

theorem c4_success_condition_witness :
    downloadSuccess [true] 1000 1000 = true ∧
    ((runEngine (initEngineState 1000 1) c4_events).workerResult = some true) := by
  constructor
  · exact (c4_success_condition_amended.1 [true] 1000 1000).mpr (by simp)
  · have hsome : (runEngine (initEngineState 1000 1) c4_events).workerResult =
        some ((runEngine (initEngineState 1000 1) c4_events).workerResult.getD false) := by
      have hinit : initEngineState 1000 1 =
          { chunks := [{ start := 0, end_ := 999, in_progress := false, completed := false, retries := 0 }]
            total_downloaded := 0
            cancelled := false
            workerResult := none } := by
        simp [initEngineState, create_chunks_1000_1]
      rw [hinit]
      decide
    rw [hsome]
    have := c4_success_condition_amended.2 1000 1 c4_events
      ((runEngine (initEngineState 1000 1) c4_events).workerResult.getD false) hsome
    rw [this]

end SNDE

/-! ## Global scheduler (src/src-tauri/src/scheduler.rs)

The scheduler state (queue, active set, paused set, completed log) is guarded
by a lock in the source; the semaphores are modelled as permit counters.
`Instant` timestamps are modelled as `Nat` ticks.
-/

namespace Scheduler

def MAX_CONCURRENT_DOWNLOADS : Nat := 3

def MAX_CONCURRENT_SNDE : Nat := 2

/-- `DownloadPriority` (scheduler.rs:27-36). -/
inductive DownloadPriority where
  | Low
  | Normal
  | High
  | Critical
deriving Repr, DecidableEq

/-- The discriminant values of the Rust enum, used by its derived `Ord`. -/
def DownloadPriority.toNat : DownloadPriority → Nat
  | .Low => 0
  | .Normal => 1
  | .High => 2
  | .Critical => 3

/-- The `<` of the derived `Ord` on `DownloadPriority`. -/
def pLt (a b : DownloadPriority) : Bool :=
  a.toNat < b.toNat

/-- `QueuedDownload` (scheduler.rs:46-54). -/
structure QueuedDownload where
  id : String
  url : String
  priority : DownloadPriority
  engine : Router.DownloadEngine
  queued_at : Nat
  started_at : Option Nat
  estimated_size : Option Nat
deriving Repr, DecidableEq

/-- `SchedulerState` (scheduler.rs:58-67) together with the two admission
semaphores of `GlobalScheduler` (scheduler.rs:110-112), as permit counts. -/
structure SchedulerState where
  queue : List QueuedDownload
  active : List QueuedDownload
  completed : List String
  paused : List QueuedDownload
  download_permits : Nat
  snde_permits : Nat
deriving Repr, DecidableEq

/-- `GlobalScheduler::new` (scheduler.rs:121-131). -/
def initialState : SchedulerState :=
  { queue := []
    active := []
    completed := []
    paused := []
    download_permits := MAX_CONCURRENT_DOWNLOADS
    snde_permits := MAX_CONCURRENT_SNDE }

/-- The priority-ordered insertion of `enqueue` and `resume_download`
(scheduler.rs:159-165, 267-273): the entry is inserted before the first
existing entry of strictly lower priority. -/
def insertByPriority : List QueuedDownload → QueuedDownload → List QueuedDownload
  | [], d => [d]
  | e :: rest, d =>
    if pLt e.priority d.priority then d :: e :: rest
    else e :: insertByPriority rest d

/-- Removal of the first entry with the given id, returning it and the
remaining list (the `position`/`remove` pattern of scheduler.rs and the
`HashMap::remove` on the active/paused maps). -/
def extractFirst : List QueuedDownload → String → Option (QueuedDownload × List QueuedDownload)
  | [], _ => none
  | d :: rest, id =>
    if d.id = id then some (d, rest)
    else
      match extractFirst rest id with
      | some (x, rest2) => some (x, d :: rest2)
      | none => none

/-- `enqueue` (scheduler.rs:139-169), with the clock passed in. -/
def enqueue (st : SchedulerState) (id url : String) (engine : Router.DownloadEngine)
    (priority : DownloadPriority) (estimated_size : Option Nat) (now : Nat) :
    SchedulerState :=
  { st with
    queue := insertByPriority st.queue
      { id := id
        url := url
        priority := priority
        engine := engine
        queued_at := now
        started_at := none
        estimated_size := estimated_size } }

/-- `resume_download` (scheduler.rs:263-278): a paused entry is re-queued
with its original priority (and original `queued_at`). -/
def resume_download (st : SchedulerState) (id : String) : SchedulerState × Bool :=
  match extractFirst st.paused id with
  | some (d, ps) => ({ st with paused := ps, queue := insertByPriority st.queue d }, true)
  | none => (st, false)

/-- `set_priority` (scheduler.rs:281-302): active entries are updated in
place; queued entries are removed and re-inserted in priority order. -/
def set_priority (st : SchedulerState) (id : String) (priority : DownloadPriority) :
    SchedulerState :=
  if st.active.any (fun d => d.id = id) then
    { st with
      active := st.active.map fun d => if d.id = id then { d with priority := priority } else d }
  else
    match extractFirst st.queue id with
    | some (d, q) => { st with queue := insertByPriority q { d with priority := priority } }
    | none => st

/-- `complete_download` (scheduler.rs:216-234): the active entry is moved to
the completed log and BOTH permits are returned (the SNDE permit only for the
native engines). -/
def complete_download (st : SchedulerState) (id : String) : SchedulerState :=
  match extractFirst st.active id with
  | some (d, act) =>
    { st with
      active := act
      completed := st.completed ++ [id]
      download_permits := st.download_permits + 1
      snde_permits :=
        if d.engine = Router.DownloadEngine.SNDE ∨ d.engine = Router.DownloadEngine.SNDESafe then
          st.snde_permits + 1
        else st.snde_permits }
  | none => st

/-- `pause_download` (scheduler.rs:237-260): an active entry moves to the
paused map and both permits are returned; a queued entry just moves to
paused. -/
def pause_download (st : SchedulerState) (id : String) : SchedulerState × Bool :=
  match extractFirst st.active id with
  | some (d, act) =>
    ({ st with
        active := act
        paused := st.paused ++ [d]
        download_permits := st.download_permits + 1
        snde_permits :=
          if d.engine = Router.DownloadEngine.SNDE ∨ d.engine = Router.DownloadEngine.SNDESafe then
            st.snde_permits + 1
          else st.snde_permits }, true)
  | none =>
    match extractFirst st.queue id with
    | some (d, q) => ({ st with queue := q, paused := st.paused ++ [d] }, true)
    | none => (st, false)

/-- `cancel_download` (scheduler.rs:360-379): an active entry is removed and
only the GENERAL download permit is returned — the SNDE permit is not; a
queued or paused entry is removed with no permit changes. -/
def cancel_download (st : SchedulerState) (id : String) : SchedulerState × Bool :=
  match extractFirst st.active id with
  | some (_, act) =>
    ({ st with active := act, download_permits := st.download_permits + 1 }, true)
  | none =>
    match extractFirst st.queue id with
    | some (_, q) => ({ st with queue := q }, true)
    | none =>
      match extractFirst st.paused id with
      | some (_, ps) => ({ st with paused := ps }, true)
      | none => (st, false)

/-- Non-increasing priority, the first half of the queue invariant. -/
def PriOrder (a b : QueuedDownload) : Prop :=
  b.priority.toNat ≤ a.priority.toNat

/-- The full claimed queue invariant relation: non-increasing priority, and
FIFO by `queued_at` within a priority class. -/
def FullOrder (a b : QueuedDownload) : Prop :=
  b.priority.toNat ≤ a.priority.toNat ∧ (a.priority = b.priority → a.queued_at ≤ b.queued_at)

instance (a b : QueuedDownload) : Decidable (PriOrder a b) := by
  unfold PriOrder
  infer_instance

instance (a b : QueuedDownload) : Decidable (FullOrder a b) := by
  unfold FullOrder
  exact instDecidableAnd

def QueueSorted (q : List QueuedDownload) : Prop :=
  q.Pairwise PriOrder

def QueueFIFO (q : List QueuedDownload) : Prop :=
  q.Pairwise FullOrder

instance (q : List QueuedDownload) : Decidable (QueueSorted q) := by
  unfold QueueSorted
  infer_instance

instance (q : List QueuedDownload) : Decidable (QueueFIFO q) := by
  unfold QueueFIFO
  infer_instance

theorem mem_insertByPriority (q : List QueuedDownload) (d x : QueuedDownload)
    (hx : x ∈ insertByPriority q d) : x = d ∨ x ∈ q := by
  induction q with
  | nil => simpa [insertByPriority] using hx
  | cons e rest ih =>
    simp only [insertByPriority] at hx
    by_cases hlt : pLt e.priority d.priority
    · rw [if_pos hlt] at hx
      rcases List.mem_cons.mp hx with h | h
      · exact Or.inl h
      · exact Or.inr h
    · rw [if_neg hlt] at hx
      rcases List.mem_cons.mp hx with h | h
      · exact Or.inr (by simp [h])
      · rcases ih h with h2 | h2
        · exact Or.inl h2
        · exact Or.inr (List.mem_cons_of_mem e h2)

theorem insertByPriority_sorted (q : List QueuedDownload) (d : QueuedDownload)
    (hq : QueueSorted q) : QueueSorted (insertByPriority q d) := by
  induction q with
  | nil => simp [insertByPriority, QueueSorted]
  | cons e rest ih =>
    rcases List.pairwise_cons.mp hq with ⟨he, hrest⟩
    simp only [insertByPriority]
    by_cases hlt : pLt e.priority d.priority
    · rw [if_pos hlt]
      have hlt2 : e.priority.toNat < d.priority.toNat := by
        simpa [pLt] using hlt
      refine List.pairwise_cons.mpr ⟨?_, hq⟩
      intro x hx
      rcases List.mem_cons.mp hx with h | h
      · rw [h]
        show e.priority.toNat ≤ d.priority.toNat
        omega
      · have h2 : x.priority.toNat ≤ e.priority.toNat := he x h
        show x.priority.toNat ≤ d.priority.toNat
        omega
    · rw [if_neg hlt]
      have hge : d.priority.toNat ≤ e.priority.toNat := by
        simpa [pLt] using hlt
      refine List.pairwise_cons.mpr ⟨?_, ih hrest⟩
      intro x hx
      rcases mem_insertByPriority rest d x hx with h | h
      · subst h
        exact hge
      · exact he x h

theorem insertByPriority_fifo (q : List QueuedDownload) (d : QueuedDownload)
    (hq : QueueFIFO q) (hqa : ∀ x ∈ q, x.queued_at ≤ d.queued_at) :
    QueueFIFO (insertByPriority q d) := by
  induction q with
  | nil => simp [insertByPriority, QueueFIFO]
  | cons e rest ih =>
    rcases List.pairwise_cons.mp hq with ⟨he, hrest⟩
    simp only [insertByPriority]
    by_cases hlt : pLt e.priority d.priority
    · rw [if_pos hlt]
      have hlt2 : e.priority.toNat < d.priority.toNat := by
        simpa [pLt] using hlt
      refine List.pairwise_cons.mpr ⟨?_, hq⟩
      intro x hx
      rcases List.mem_cons.mp hx with h | h
      · subst h
        refine ⟨by omega, fun hpr => ?_⟩
        exact absurd (congrArg DownloadPriority.toNat hpr) (by omega)
      · have h2 : x.priority.toNat ≤ e.priority.toNat ∧
            (e.priority = x.priority → e.queued_at ≤ x.queued_at) := he x h
        refine ⟨by omega, fun hpr => ?_⟩
        have := congrArg DownloadPriority.toNat hpr
        omega
    · rw [if_neg hlt]
      have hge : d.priority.toNat ≤ e.priority.toNat := by
        simpa [pLt] using hlt
      refine List.pairwise_cons.mpr
        ⟨?_, ih hrest (fun x hx => hqa x (List.mem_cons_of_mem e hx))⟩
      intro x hx
      rcases mem_insertByPriority rest d x hx with h | h
      · subst h
        exact ⟨hge, fun _ => hqa e (List.mem_cons_self ..)⟩
      · exact he x h

theorem extractFirst_sublist (q : List QueuedDownload) (id : String)
    (d : QueuedDownload) (rest : List QueuedDownload)
    (h : extractFirst q id = some (d, rest)) : rest.Sublist q := by
  induction q generalizing d rest with
  | nil => simp [extractFirst] at h
  | cons e q0 ih =>
    simp only [extractFirst] at h
    by_cases hid : e.id = id
    · rw [if_pos hid] at h
      cases h
      exact List.sublist_cons_self ..
    · rw [if_neg hid] at h
      cases hrec : extractFirst q0 id with
      | none => rw [hrec] at h; cases h
      | some pr =>
        rcases pr with ⟨x, rest2⟩
        rw [hrec] at h
        cases h
        exact List.Sublist.cons₂ e (ih d rest2 hrec)

/-- One scheduler operation of the C7 claim. -/
inductive SchedOp where
  | enqueueOp (id url : String) (engine : Router.DownloadEngine)
      (priority : DownloadPriority) (estimated_size : Option Nat) (now : Nat)
  | resumeOp (id : String)
  | setPriorityOp (id : String) (priority : DownloadPriority)
deriving Repr, DecidableEq

def applySchedOp (st : SchedulerState) : SchedOp → SchedulerState
  | .enqueueOp id url engine priority sz now => enqueue st id url engine priority sz now
  | .resumeOp id => (resume_download st id).1
  | .setPriorityOp id priority => set_priority st id priority

def applySchedOps (st : SchedulerState) (ops : List SchedOp) : SchedulerState :=
  ops.foldl applySchedOp st

theorem queue_sorted_step (st : SchedulerState) (op : SchedOp)
    (hq : QueueSorted st.queue) : QueueSorted (applySchedOp st op).queue := by
  cases op with
  | enqueueOp id url engine priority sz now =>
    simpa [applySchedOp, enqueue] using insertByPriority_sorted st.queue _ hq
  | resumeOp id =>
    simp only [applySchedOp, resume_download]
    cases hex : extractFirst st.paused id with
    | none => simpa using hq
    | some pr =>
      rcases pr with ⟨d, ps⟩
      simpa using insertByPriority_sorted st.queue d hq
  | setPriorityOp id priority =>
    simp only [applySchedOp, set_priority]
    by_cases hact : st.active.any (fun d => d.id = id)
    · simpa [hact] using hq
    · simp only [hact, Bool.false_eq_true, if_false]
      cases hex : extractFirst st.queue id with
      | none => simpa using hq
      | some pr =>
        rcases pr with ⟨d, q⟩
        have hsub := extractFirst_sublist st.queue id d q hex
        have hqsub : QueueSorted q := List.Pairwise.sublist hsub hq
        simpa using insertByPriority_sorted q _ hqsub

def opIsEnqueue : SchedOp → Bool
  | .enqueueOp .. => true
  | _ => false

def opTime : SchedOp → Nat
  | .enqueueOp _ _ _ _ _ now => now
  | _ => 0

/-- The C7 counterexample schedule: enqueue A at Low priority (tick 0),
enqueue B at Normal (tick 1), then raise A to Normal. -/
def c7ops : List SchedOp :=
  [SchedOp.enqueueOp "A" "u" Router.DownloadEngine.MediaEngine DownloadPriority.Low none 0,
   SchedOp.enqueueOp "B" "u" Router.DownloadEngine.MediaEngine DownloadPriority.Normal none 1,
   SchedOp.setPriorityOp "A" DownloadPriority.Normal]

/-- C7 counterexample: after `set_priority` raises a queued entry, the
pending queue holds two Normal-priority entries ordered B (queued at tick 1)
before A (queued at tick 0) — equal priorities are NOT FIFO by `queued_at`,
so the claimed invariant fails for this interleaving. -/
theorem c7_counterexample :
    (applySchedOps initialState c7ops).queue.map
        (fun d => (d.id, d.priority.toNat, d.queued_at)) =
      [("B", 1, 1), ("A", 1, 0)] ∧
    ¬ QueueFIFO (applySchedOps initialState c7ops).queue := by
  constructor
  · decide
  · decide

/-- C7 (corrected): the priority half of the invariant holds after every
interleaving of `enqueue`, `resume_download` and `set_priority` (for any two
pending entries A before B, `A.priority ≥ B.priority`); the FIFO-by-
`queued_at` half additionally holds for interleavings consisting solely of
`enqueue` operations with strictly increasing clock values.  `set_priority`
(and likewise a resume) re-inserts an entry AFTER the existing members of its
new priority class regardless of its older `queued_at`, so the FIFO half
fails for general interleavings, see `c7_counterexample`. -/
theorem c7_queue_invariant_amended :
    (∀ (ops : List SchedOp) (st : SchedulerState),
        QueueSorted st.queue → QueueSorted (applySchedOps st ops).queue) ∧
    (∀ ops : List SchedOp, ops.all opIsEnqueue = true →
        (ops.map opTime).Pairwise (· < ·) →
        QueueFIFO (applySchedOps initialState ops).queue) := by
  constructor
  · intro ops
    induction ops with
    | nil =>
      intro st h
      exact h
    | cons op rest ih =>
      intro st h
      exact ih (applySchedOp st op) (queue_sorted_step st op h)
  · have hgen : ∀ (ops : List SchedOp) (st : SchedulerState),
        ops.all opIsEnqueue = true →
        (ops.map opTime).Pairwise (· < ·) →
        QueueFIFO st.queue →
        (∀ x ∈ st.queue, ∀ op ∈ ops, x.queued_at ≤ opTime op) →
        QueueFIFO (applySchedOps st ops).queue := by
      intro ops
      induction ops with
      | nil =>
        intro st _ _ h _
        exact h
      | cons op rest ih =>
        intro st hall htimes hfifo hbound
        have hop : opIsEnqueue op = true :=
          List.all_eq_true.mp hall op (List.mem_cons_self ..)
        have hrest : rest.all opIsEnqueue = true :=
          List.all_eq_true.mpr fun x hx =>
            List.all_eq_true.mp hall x (List.mem_cons_of_mem op hx)
        cases op with
        | resumeOp id => simp [opIsEnqueue] at hop
        | setPriorityOp id p => simp [opIsEnqueue] at hop
        | enqueueOp id url engine priority sz now =>
          rw [List.map_cons, List.pairwise_cons] at htimes
          have htimes1 : ∀ op2 ∈ rest, now < opTime op2 := by
            intro op2 hop2
            have := htimes.1 (opTime op2) (List.mem_map_of_mem opTime hop2)
            simpa [opTime] using this
          refine ih (applySchedOp st (SchedOp.enqueueOp id url engine priority sz now))
            hrest htimes.2 ?_ ?_
          · simp only [applySchedOp, enqueue]
            exact insertByPriority_fifo st.queue _ hfifo
              (fun x hx => hbound x hx _ (List.mem_cons_self ..))
          · intro x hx op2 hop2
            simp only [applySchedOp, enqueue] at hx
            rcases mem_insertByPriority st.queue _ x hx with hxd | hxq
            · subst hxd
              exact le_of_lt (htimes1 op2 hop2)
            · exact hbound x hxq op2 (List.mem_cons_of_mem _ hop2)
    intro ops hall htimes
    exact hgen ops initialState hall htimes (by simp [initialState, QueueFIFO])
      (by simp [initialState])

theorem c7_queue_invariant_witness :
    QueueSorted (applySchedOps initialState c7ops).queue ∧
    QueueFIFO (applySchedOps initialState
      [SchedOp.enqueueOp "A" "u" Router.DownloadEngine.MediaEngine DownloadPriority.Low none 0,
       SchedOp.enqueueOp "B" "u" Router.DownloadEngine.MediaEngine DownloadPriority.Normal none 1]).queue := by
  constructor
  · exact c7_queue_invariant_amended.1 c7ops initialState (by decide)
  · exact c7_queue_invariant_amended.2
      [SchedOp.enqueueOp "A" "u" Router.DownloadEngine.MediaEngine DownloadPriority.Low none 0,
       SchedOp.enqueueOp "B" "u" Router.DownloadEngine.MediaEngine DownloadPriority.Normal none 1]
      (by decide) (by decide)

/-- C10: cancelling an ACTIVE download returns exactly one general download
permit and — unlike `complete_download` and `pause_download` — never returns
the native-engine (SNDE) permit, even when the cancelled download's engine is
SNDE or SNDESafe; the queue, paused set, completed log and SNDE permit count
are unchanged, and only the active set shrinks. -/
theorem c10_cancel_frame (st : SchedulerState) (id : String) (d : QueuedDownload)
    (act : List QueuedDownload)
    (hex : extractFirst st.active id = some (d, act))
    (heng : d.engine = Router.DownloadEngine.SNDE ∨
      d.engine = Router.DownloadEngine.SNDESafe) :
    cancel_download st id =
      ({ st with active := act, download_permits := st.download_permits + 1 }, true) ∧
    (cancel_download st id).1.snde_permits = st.snde_permits ∧
    (cancel_download st id).1.queue = st.queue ∧
    (cancel_download st id).1.paused = st.paused ∧
    (cancel_download st id).1.completed = st.completed ∧
    (cancel_download st id).1.download_permits = st.download_permits + 1 ∧
    (complete_download st id).snde_permits = st.snde_permits + 1 ∧
    (pause_download st id).1.snde_permits = st.snde_permits + 1 := by
  have hc : cancel_download st id =
      ({ st with active := act, download_permits := st.download_permits + 1 }, true) := by
    simp [cancel_download, hex]
  refine ⟨hc, ?_, ?_, ?_, ?_, ?_, ?_, ?_⟩
  · rw [hc]
  · rw [hc]
  · rw [hc]
  · rw [hc]
  · rw [hc]
  · simp [complete_download, hex, heng]
  · simp [pause_download, hex, heng]

theorem c10_cancel_frame_witness :
    (cancel_download
        { initialState with
            active := [{ id := "x", url := "u", priority := DownloadPriority.Normal,
                         engine := Router.DownloadEngine.SNDE, queued_at := 0,
                         started_at := none, estimated_size := none }] } "x").1.snde_permits =
      MAX_CONCURRENT_SNDE ∧
    (complete_download
        { initialState with
            active := [{ id := "x", url := "u", priority := DownloadPriority.Normal,
                         engine := Router.DownloadEngine.SNDE, queued_at := 0,
                         started_at := none, estimated_size := none }] } "x").snde_permits =
      MAX_CONCURRENT_SNDE + 1 := by
  have h := c10_cancel_frame
    { initialState with
        active := [{ id := "x", url := "u", priority := DownloadPriority.Normal,
                     engine := Router.DownloadEngine.SNDE, queued_at := 0,
                     started_at := none, estimated_size := none }] } "x"
    { id := "x", url := "u", priority := DownloadPriority.Normal,
      engine := Router.DownloadEngine.SNDE, queued_at := 0,
      started_at := none, estimated_size := none } [] (by decide) (Or.inl rfl)
  exact ⟨h.2.1, h.2.2.2.2.2.2.1⟩

end Scheduler

/-! ## Watchdog (src/src-tauri/src/watchdog.rs) and health metrics
(src/src-tauri/src/health_metrics.rs) -/

namespace Watchdog

/-- `DownloadPhase` (health_metrics.rs:115-137). -/
inductive DownloadPhase where
  | Preflight
  | Queued
  | Allocating
  | Downloading
  | Merging
  | PostProcessing
  | Completed
  | Failed
  | Paused
  | Cancelled
deriving Repr, DecidableEq

/-- `WatchdogAction` (health_metrics.rs:190-201). -/
inductive WatchdogAction where
  | NoAction
  | CollapseConnections (count : Nat)
  | EnableSafeMode
  | RecommendEngineSwitch
  | CriticalFailure (reason : String)
deriving Repr, DecidableEq

/-- `ConnectionHealth` (health_metrics.rs:21-38). -/
structure ConnectionHealth where
  connection_id : Nat
  throughput_bps : Nat
  bytes_downloaded : Nat
  error_count : Nat
  retry_count : Nat
  last_status_code : Nat
  is_stalled : Bool
  stall_duration_ms : Nat
deriving Repr, DecidableEq

/-- `DownloadHealth` (health_metrics.rs:55-92). -/
structure DownloadHealth where
  download_id : String
  engine : Router.DownloadEngine
  started_at : Int
  total_bytes : Option Nat
  downloaded_bytes : Nat
  active_connections : Nat
  peak_connections : Nat
  connection_health : List ConnectionHealth
  total_throughput_bps : Nat
  total_errors : Nat
  total_retries : Nat
  throttling_detected : Bool
  collapse_count : Nat
  safe_mode_active : Bool
  phase : DownloadPhase
  error_log : List String
deriving Repr, DecidableEq

/-- `WatchdogConfig` (watchdog.rs:62-88). -/
structure WatchdogConfig where
  check_interval_ms : Nat
  min_throughput_bps : Nat
  max_consecutive_errors : Nat
  error_window_seconds : Nat
  auto_collapse : Bool
  auto_safe_mode : Bool
deriving Repr, DecidableEq

/-- `WatchdogConfig::default` (watchdog.rs:77-88). -/
def defaultConfig : WatchdogConfig :=
  { check_interval_ms := 1000
    min_throughput_bps := 10000
    max_consecutive_errors := 5
    error_window_seconds := 60
    auto_collapse := true
    auto_safe_mode := true }

/-- `WatchdogState` (watchdog.rs:123-130). -/
structure WatchdogState where
  download_id : String
  last_check_bytes : Nat
  last_check_errors : Nat
  consecutive_stalls : Nat
  actions_taken : List WatchdogAction
deriving Repr, DecidableEq

/-- `start_monitoring` (watchdog.rs:161-171). -/
def start_monitoring (download_id : String) : WatchdogState :=
  { download_id := download_id
    last_check_bytes := 0
    last_check_errors := 0
    consecutive_stalls := 0
    actions_taken := [] }

/-- `check_health` (watchdog.rs:181-257): one watchdog tick for one download.
Inputs are the registry's health snapshot (`none` when the download is not
registered) and the monitor state (`none` when not monitored); returns the
emitted action, if any, and the updated monitor state. -/
def check_health (config : WatchdogConfig) (health? : Option DownloadHealth)
    (state? : Option WatchdogState) : Option WatchdogAction × Option WatchdogState :=
  match health? with
  | none => (none, state?)
  | some health =>
    if health.phase ≠ DownloadPhase.Downloading then (none, state?)
    else
      match state? with
      | none => (none, none)
      | some st =>
        let bytes_progress := health.downloaded_bytes - st.last_check_bytes
        let new_errors := health.total_errors - st.last_check_errors
        let consecutive_stalls :=
          if bytes_progress = 0 ∧ 0 < health.downloaded_bytes then st.consecutive_stalls + 1
          else 0
        let st1 := { st with
          last_check_bytes := health.downloaded_bytes
          last_check_errors := health.total_errors
          consecutive_stalls := consecutive_stalls }
        let action :=
          if 5 ≤ consecutive_stalls then
            if health.safe_mode_active then WatchdogAction.RecommendEngineSwitch
            else if 1 < health.active_connections then
              WatchdogAction.CollapseConnections (max (health.active_connections / 2) 1)
            else WatchdogAction.EnableSafeMode
          else if config.max_consecutive_errors ≤ new_errors then
            if 1 < health.active_connections then
              WatchdogAction.CollapseConnections (max (health.active_connections / 2) 1)
            else if ¬ health.safe_mode_active then WatchdogAction.EnableSafeMode
            else WatchdogAction.RecommendEngineSwitch
          else if health.throttling_detected ∧ ¬ health.safe_mode_active then
            if 2 < health.active_connections then WatchdogAction.CollapseConnections 2
            else if 1 < health.active_connections then WatchdogAction.CollapseConnections 1
            else WatchdogAction.EnableSafeMode
          else WatchdogAction.NoAction
        if action ≠ WatchdogAction.NoAction ∧ action ∉ st1.actions_taken then
          (some action, some { st1 with actions_taken := st1.actions_taken ++ [action] })
        else (none, some st1)

/-- A sequence of 1-second watchdog ticks against the given per-tick health
snapshots, collecting the per-tick emitted actions. -/
def runTicks (config : WatchdogConfig) :
    List (Option DownloadHealth) → Option WatchdogState →
      List (Option WatchdogAction) × Option WatchdogState
  | [], st => ([], st)
  | h :: rest, st =>
    let step := check_health config h st
    let tail := runTicks config rest step.2
    (step.1 :: tail.1, tail.2)

/-- The health snapshot of the C8 scenario: the downloading phase, a constant
downloaded-bytes counter `bytes`, no errors, no throttling, safe mode off,
`active` connections. -/
def steadyHealth (bytes active : Nat) : DownloadHealth :=
  { download_id := "d"
    engine := Router.DownloadEngine.SNDE
    started_at := 0
    total_bytes := some 1000000
    downloaded_bytes := bytes
    active_connections := active
    peak_connections := active
    connection_health := []
    total_throughput_bps := 0
    total_errors := 0
    total_retries := 0
    throttling_detected := false
    collapse_count := 0
    safe_mode_active := false
    phase := DownloadPhase.Downloading
    error_log := [] }

/-- C8 counterexample: a download that is stalled at ZERO downloaded bytes.
Its counter never advances across five (here six) 1-second ticks, yet no
`ConnectionsCollapsed` action is ever emitted, because `check_health` counts
a stall only when `downloaded_bytes > 0` (watchdog.rs:198). -/
theorem c8_counterexample :
    (runTicks defaultConfig (List.replicate 6 (some (steadyHealth 0 8)))
        (some (start_monitoring "d"))).1 =
      [none, none, none, none, none, none] := by
  decide

theorem check_health_stall_step (bytes active k : Nat) (hb : 0 < bytes)
    (hact : 1 < active) (hk : k + 1 < 5) :
    check_health defaultConfig (some (steadyHealth bytes active))
        (some { download_id := "d", last_check_bytes := bytes, last_check_errors := 0,
                consecutive_stalls := k, actions_taken := [] }) =
      (none, some { download_id := "d", last_check_bytes := bytes, last_check_errors := 0,
                    consecutive_stalls := k + 1, actions_taken := [] }) := by
  simp only [check_health, steadyHealth, defaultConfig]
  norm_num
  have h5 : ¬ 5 ≤ k + 1 := by omega
  simp [hb, h5]

theorem check_health_fifth_stall (bytes active : Nat) (hb : 0 < bytes)
    (hact : 1 < active) :
    check_health defaultConfig (some (steadyHealth bytes active))
        (some { download_id := "d", last_check_bytes := bytes, last_check_errors := 0,
                consecutive_stalls := 4, actions_taken := [] }) =
      (some (WatchdogAction.CollapseConnections (max (active / 2) 1)),
       some { download_id := "d", last_check_bytes := bytes, last_check_errors := 0,
              consecutive_stalls := 5,
              actions_taken := [WatchdogAction.CollapseConnections (max (active / 2) 1)] }) := by
  simp only [check_health, steadyHealth, defaultConfig]
  norm_num
  simp [hb, hact]

/-- C8 (corrected): for a monitored download in the downloading phase with
safe mode off, no new errors, no throttling, more than one active connection
and a POSITIVE downloaded-bytes counter that does not advance, the watchdog
emits no action on the first four stalled ticks and emits
`CollapseConnections (max (active/2) 1)` on the fifth stalled tick; with 8
active connections the new count is 4.  (The original claim omitted the
positivity of the counter: a download stalled at zero bytes never triggers
the collapse, see `c8_counterexample`.) -/
theorem c8_collapse_amended (bytes active : Nat) (hb : 0 < bytes) (hact : 1 < active) :
    (runTicks defaultConfig (List.replicate 5 (some (steadyHealth bytes active)))
        (some { download_id := "d", last_check_bytes := bytes, last_check_errors := 0,
                consecutive_stalls := 0, actions_taken := [] })).1 =
      [none, none, none, none,
       some (WatchdogAction.CollapseConnections (max (active / 2) 1))] ∧
    (8 : Nat) / 2 = 4 ∧ max ((8 : Nat) / 2) 1 = 4 := by
  refine ⟨?_, rfl, rfl⟩
  have h0 := check_health_stall_step bytes active 0 hb hact (by norm_num)
  have h1 := check_health_stall_step bytes active 1 hb hact (by norm_num)
  have h2 := check_health_stall_step bytes active 2 hb hact (by norm_num)
  have h3 := check_health_stall_step bytes active 3 hb hact (by norm_num)
  have h4 := check_health_fifth_stall bytes active hb hact
  simp only [List.replicate, runTicks, h0, h1, h2, h3, h4]

theorem c8_collapse_amended_witness :
    (runTicks defaultConfig (List.replicate 5 (some (steadyHealth 100 8)))
        (some { download_id := "d", last_check_bytes := 100, last_check_errors := 0,
                consecutive_stalls := 0, actions_taken := [] })).1 =
      [none, none, none, none, some (WatchdogAction.CollapseConnections 4)] := by
  have h := c8_collapse_amended 100 8 (by norm_num) (by norm_num)
  simpa using h.1

end Watchdog

end Ownstash
